import Mathlib

/-!
Shallow embedding of the order allocation and fulfillment engine of the
screencloud-takehome repository: the cost calculator
(`calculateProductCostsWithDiscounts`), the warehouse ranker
(`getWarehousesSortedByShippingCost`), the allocator
(`performInventoryAllocation`), the shipping-cost validation
(`calculateTotalShippingCost`, `isShippingCostValid`), the stock ledger write
(`updateInventoryAndLogChanges`) and the two orchestrators
(`createWalkInOrder`, `checkFeasibility`).

Modelling conventions: JavaScript numbers holding integer cents, grams and
quantities are embedded as `Int`; fractional values (discount percentages,
the 0.15 shipping ratio, per-line weight in kilograms) as `ℚ`; geographic
coordinates and the haversine distance as `ℝ`.  `Math.round` is Mathlib's
`round` (half away from zero towards +∞, i.e. `⌊x + 1/2⌋`), `Math.ceil` is
`Int.ceil`, `Math.floor` is `Int.floor`.  A JavaScript `Map` is an
association list in insertion order where `set` on an existing key replaces
the value in place.  Database tables are lists of row structures; thrown
exceptions are `Except` errors; `db.transaction` returns the original state
whenever its body fails.
-/

namespace Screencloud

/-- `ProductCostDetails` from `productRepository.ts` (cost calculator output). -/
structure ProductCostDetails where
  requestedQuantity : Int
  unitPriceCents : Int
  weightGrams : Int
  discountPercentage : ℚ
  totalProductCostCents : Int
  totalDiscountCents : Int
  totalDiscountedProductCostCents : Int
deriving DecidableEq, Repr

/-- `WarehouseShippingInfo` from `warehouseRepository.ts`. -/
structure WarehouseShippingInfo where
  warehouseId : String
  shippingCostCentsPerKg : Int
deriving DecidableEq, Repr

/-- `AllocatedOrderLine` from `services/shared/helpers.ts`. -/
structure AllocatedOrderLine where
  productId : String
  warehouseId : String
  allocatedQuantity : Int
  unitPriceCents : Int
  discountPercentage : ℚ
  productWeightGrams : Int
  shippingCostCentsPerKg : Int
deriving DecidableEq, Repr

/-- `InventoryUpdateItem` from `inventoryRepository.ts`. -/
structure InventoryUpdateItem where
  productId : String
  warehouseId : String
  quantityToDecrement : Int
deriving DecidableEq, Repr

/-- Payload of the `InventoryAllocationError` thrown by
`performInventoryAllocation`; the thrown message interpolates exactly the
product id, the requested quantity and the quantity allocated so far. -/
structure InventoryAllocationError where
  productId : String
  requestedQuantity : Int
  allocatableQuantity : Int
deriving DecidableEq, Repr

/-- The inner warehouse loop of `performInventoryAllocation`
(`helpers.ts` lines 68-98) for a single product: walks the ranked warehouse
list, allocating `min(remaining, max(0, inventory - reserved))` at each
warehouse with positive availability, and stops once `remaining ≤ 0`.
Returns the emitted allocation lines, the emitted inventory updates and the
final remaining quantity. -/
def allocateProduct (productId : String) (d : ProductCostDetails)
    (inv res : String → String → Int) :
    List WarehouseShippingInfo → Int →
      List AllocatedOrderLine × List InventoryUpdateItem × Int
  | [], remaining => ([], [], remaining)
  | w :: ws, remaining =>
    if remaining ≤ 0 then ([], [], remaining)
    else
      let available := max 0 (inv w.warehouseId productId - res w.warehouseId productId)
      if 0 < available then
        let q := min remaining available
        let rest := allocateProduct productId d inv res ws (remaining - q)
        (⟨productId, w.warehouseId, q, d.unitPriceCents, d.discountPercentage,
            d.weightGrams, w.shippingCostCentsPerKg⟩ :: rest.1,
          ⟨productId, w.warehouseId, q⟩ :: rest.2.1, rest.2.2)
      else allocateProduct productId d inv res ws remaining

/-- `performInventoryAllocation` from `services/shared/helpers.ts` lines
58-107: iterates the priced products in map (insertion) order, allocates
each across the ranked warehouses, and throws `InventoryAllocationError` as
soon as one product cannot be fully allocated. -/
def performInventoryAllocation
    (productDetails : List (String × ProductCostDetails))
    (sortedWarehouses : List WarehouseShippingInfo)
    (inv res : String → String → Int) :
    Except InventoryAllocationError
      (List AllocatedOrderLine × List InventoryUpdateItem) :=
  match productDetails with
  | [] => .ok ([], [])
  | (pid, d) :: rest =>
    let r := allocateProduct pid d inv res sortedWarehouses d.requestedQuantity
    if 0 < r.2.2 then
      .error ⟨pid, d.requestedQuantity, d.requestedQuantity - r.2.2⟩
    else
      match performInventoryAllocation rest sortedWarehouses inv res with
      | .ok (ls, us) => .ok (r.1 ++ ls, r.2.1 ++ us)
      | .error e => .error e

/-- Per-line shipping cost from `calculateTotalShippingCost`
(`helpers.ts` lines 117-120): `Math.ceil(quantity * weightGrams / 1000 * costPerKg)`. -/
def lineShippingCostCents (l : AllocatedOrderLine) : Int :=
  ⌈(l.allocatedQuantity * l.productWeightGrams : ℚ) / 1000 * l.shippingCostCentsPerKg⌉

/-- `calculateTotalShippingCost` from `helpers.ts` lines 115-123. -/
def calculateTotalShippingCost (lines : List AllocatedOrderLine) : Int :=
  lines.foldl (fun acc l => acc + lineShippingCostCents l) 0

/-- `isShippingCostValid` from `helpers.ts` lines 133-145: if the discounted
total is `≤ 0` the shipping must be exactly 0; otherwise it must not exceed
`Math.floor(0.15 * discountedTotal)`. -/
def isShippingCostValid (totalShippingCostCents overallTotalPriceCents
    overallTotalDiscountCents : Int) : Bool :=
  let overallDiscountedTotalPriceCents :=
    overallTotalPriceCents - overallTotalDiscountCents
  if overallDiscountedTotalPriceCents ≤ 0 then
    totalShippingCostCents == 0
  else
    decide (totalShippingCostCents ≤
      ⌊(15 : ℚ) / 100 * (overallDiscountedTotalPriceCents : ℚ)⌋)

/-- `calculateOverallProductTotals` from `helpers.ts` lines 36-46: sums
`totalProductCostCents` and `totalDiscountCents` over the map values. -/
def calculateOverallProductTotals
    (productDetails : List (String × ProductCostDetails)) : Int × Int :=
  productDetails.foldl
    (fun acc p => (acc.1 + p.2.totalProductCostCents, acc.2 + p.2.totalDiscountCents))
    (0, 0)

/-! ## Cost calculator (`calculateProductCostsWithDiscounts`) -/

/-- A row of the `products` table. -/
structure ProductRow where
  id : String
  unitPriceCents : Int
  weightGrams : Int
deriving DecidableEq, Repr

/-- A row of the `volumeDiscounts` table: `(productId, threshold, percentage)`. -/
structure VolumeDiscountRow where
  productId : String
  threshold : Int
  discountPercentage : ℚ
deriving DecidableEq, Repr

/-- `OrderRequestedProduct`: one `(productId, quantity)` item of a request. -/
structure OrderRequestedProduct where
  productId : String
  quantity : Int
deriving DecidableEq, Repr

/-- The discount-resolution loop of `calculateProductCostsWithDiscounts`:
the tier list is sorted by descending threshold and the first tier with
`requestedQuantity ≥ threshold` wins; 0 if none does. -/
def resolveDiscountPercentage : List VolumeDiscountRow → Int → ℚ
  | [], _ => 0
  | t :: ts, q =>
    if t.threshold ≤ q then t.discountPercentage else resolveDiscountPercentage ts q

/-- Insertion step of the descending-threshold sort modelling the SQL
`ORDER BY threshold DESC` of the `volumeDiscounts` query. -/
def insertTierDesc (t : VolumeDiscountRow) :
    List VolumeDiscountRow → List VolumeDiscountRow
  | [] => [t]
  | u :: us =>
    if u.threshold ≤ t.threshold then t :: u :: us else u :: insertTierDesc t us

/-- Sort a tier list by descending threshold (SQL `ORDER BY ... DESC`). -/
def sortTiersDesc : List VolumeDiscountRow → List VolumeDiscountRow
  | [] => []
  | t :: ts => insertTierDesc t (sortTiersDesc ts)

/-- The tiers fetched for one product: the `volumeDiscounts` query filters by
product id and orders by threshold descending (`orderBy(desc(threshold))`). -/
def tiersForProduct (discounts : List VolumeDiscountRow) (pid : String) :
    List VolumeDiscountRow :=
  sortTiersDesc (discounts.filter (fun d => d.productId == pid))

/-- The per-item body of `calculateProductCostsWithDiscounts`: resolves the
discount percentage, computes `totalCost = unitPrice * quantity`,
`totalDiscount = Math.round(totalCost * pct / 100)` and the discounted total. -/
def mkProductCostDetails (p : ProductRow) (tiersDesc : List VolumeDiscountRow)
    (quantity : Int) : ProductCostDetails :=
  let pct := resolveDiscountPercentage tiersDesc quantity
  let totalProductCostCents := p.unitPriceCents * quantity
  let totalDiscountCents := round ((totalProductCostCents : ℚ) * (pct / 100))
  { requestedQuantity := quantity
    unitPriceCents := p.unitPriceCents
    weightGrams := p.weightGrams
    discountPercentage := pct
    totalProductCostCents := totalProductCostCents
    totalDiscountCents := totalDiscountCents
    totalDiscountedProductCostCents := totalProductCostCents - totalDiscountCents }

/-- `Map.prototype.set`: replace in place if the key exists, else append. -/
def mapSet (m : List (String × ProductCostDetails)) (k : String)
    (v : ProductCostDetails) : List (String × ProductCostDetails) :=
  if m.any (fun p => p.1 == k) then
    m.map (fun p => if p.1 == k then (k, v) else p)
  else m ++ [(k, v)]

/-- `Map.prototype.get` on the association-list model. -/
def mapLookup (m : List (String × ProductCostDetails)) (k : String) :
    Option ProductCostDetails :=
  (m.find? (fun p => p.1 == k)).map (·.2)

/-- `calculateProductCostsWithDiscounts` from `productRepository.ts`
(the `Map`-returning version used by the services): throws
`ProductNotFoundError` (carrying the first unknown product id) if any item
references a missing product, else builds a `Map` keyed by product id via
`resultsMap.set(item.productId, costDetails)` for each item in order. -/
def calculateProductCostsWithDiscounts (products : List ProductRow)
    (discounts : List VolumeDiscountRow) (items : List OrderRequestedProduct) :
    Except String (List (String × ProductCostDetails)) :=
  match items.find? (fun it => (products.find? (fun p => p.id == it.productId)).isNone) with
  | some it => .error it.productId
  | none =>
    .ok (items.foldl (fun m it =>
      match products.find? (fun p => p.id == it.productId) with
      | some p =>
        mapSet m it.productId
          (mkProductCostDetails p (tiersForProduct discounts it.productId) it.quantity)
      | none => m) [])

/-! ## Stock ledger (`inventoryRepository.ts`, `reservationRepository`) -/

/-- A row of the `inventory` table, keyed by `(productId, warehouseId)`. -/
structure InventoryRow where
  productId : String
  warehouseId : String
  quantity : Int
deriving DecidableEq, Repr

/-- A reservation line joined with its parent reservation; `active` models
`status = 'ACTIVE' ∧ expiresAt > now` at the time of the read. -/
structure ReservationLineRow where
  warehouseId : String
  productId : String
  quantity : Int
  active : Bool
deriving DecidableEq, Repr

/-- The `inventoryLog` change-type enum (first enum value used by the write). -/
inductive InventoryChangeType where
  | ORDER_FULFILLMENT
deriving DecidableEq, Repr

/-- A row of the append-only `inventoryLog` table (timestamps omitted). -/
structure InventoryLogRow where
  productId : String
  warehouseId : String
  quantityChange : Int
  newQuantity : Int
  changeType : InventoryChangeType
  referenceId : String
deriving DecidableEq, Repr

/-- `getInventoryForProducts` from `inventoryRepository.ts` lines 46-74, as
the lookup the allocator performs on its nested-object result: quantity of
the row for `(productId, warehouseId)` when the product was queried and a
row exists, 0 otherwise (`?? 0`).  The fold mirrors the row loop, where a
later row for the same pair would overwrite an earlier one. -/
def getInventoryForProducts (rows : List InventoryRow) (productIds : List String) :
    String → String → Int :=
  fun warehouseId productId =>
    rows.foldl (fun acc r =>
      if r.productId ∈ productIds ∧ r.warehouseId = warehouseId ∧ r.productId = productId
      then r.quantity else acc) 0

/-- `getReservedInventoryByWarehouseForProducts` from the reservation
repository, as the lookup the allocator performs on its result: the sum of
quantities over ACTIVE, unexpired reservation lines for the queried products,
grouped by `(warehouseId, productId)`; 0 for products not queried. -/
def getReservedInventoryByWarehouseForProducts (lines : List ReservationLineRow)
    (productIds : List String) : String → String → Int :=
  fun warehouseId productId =>
    if productId ∈ productIds then
      ((lines.filter (fun l =>
          l.active ∧ l.warehouseId = warehouseId ∧ l.productId = productId)).map
        (·.quantity)).sum
    else 0

/-- The conditional `UPDATE ... WHERE productId = _ AND warehouseId = _ AND
quantity >= amount RETURNING quantity` of `updateInventoryAndLogChanges`
(`inventoryRepository.ts` lines 112-129): decrements every matching row in
the same statement as the `quantity >= amount` condition and returns `none`
when zero rows matched, else the updated table and the returned new
quantity of the first matched row. -/
def applyInventoryUpdate (rows : List InventoryRow) (u : InventoryUpdateItem) :
    Option (List InventoryRow × Int) :=
  match rows.find? (fun r =>
      r.productId == u.productId && r.warehouseId == u.warehouseId &&
        decide (u.quantityToDecrement ≤ r.quantity)) with
  | none => none
  | some m =>
    some (rows.map (fun r =>
        if r.productId == u.productId && r.warehouseId == u.warehouseId &&
            decide (u.quantityToDecrement ≤ r.quantity)
        then { r with quantity := r.quantity - u.quantityToDecrement } else r),
      m.quantity - u.quantityToDecrement)

/-- `updateInventoryAndLogChanges` from `inventoryRepository.ts` lines
96-157: for each update item, skips non-positive amounts (with a console
warning), performs the conditional decrement, throws (carrying the failed
item) when it matches zero rows, and otherwise appends one `inventoryLog`
row with the negated amount, the returned new quantity, change type
`ORDER_FULFILLMENT` and the order id as reference. -/
def updateInventoryAndLogChanges (rows : List InventoryRow)
    (log : List InventoryLogRow) (updates : List InventoryUpdateItem)
    (orderId : String) :
    Except InventoryUpdateItem (List InventoryRow × List InventoryLogRow) :=
  match updates with
  | [] => .ok (rows, log)
  | u :: rest =>
    if u.quantityToDecrement ≤ 0 then
      updateInventoryAndLogChanges rows log rest orderId
    else
      match applyInventoryUpdate rows u with
      | none => .error u
      | some (rows', newQuantity) =>
        updateInventoryAndLogChanges rows'
          (log ++ [⟨u.productId, u.warehouseId, -u.quantityToDecrement, newQuantity,
            .ORDER_FULFILLMENT, orderId⟩])
          rest orderId

/-! ## Warehouse ranker (`warehouseRepository.ts`, `utils/shippingUtils.ts`) -/

/-- A row of the `warehouses` table (coordinates already parsed to numbers). -/
structure WarehouseRow where
  id : String
  latitude : ℝ
  longitude : ℝ

/-- `degreesToRadians` from `utils/shippingUtils.ts`. -/
noncomputable def degreesToRadians (degrees : ℝ) : ℝ :=
  degrees * (Real.pi / 180)

/-- `Math.atan2(y, x)` on the real-number model (signed zeros collapse). -/
noncomputable def atan2 (y x : ℝ) : ℝ :=
  if 0 < x then Real.arctan (y / x)
  else if x < 0 then
    if 0 ≤ y then Real.arctan (y / x) + Real.pi
    else Real.arctan (y / x) - Real.pi
  else if 0 < y then Real.pi / 2
  else if y < 0 then -(Real.pi / 2)
  else 0

/-- `calculateDistanceKm` from `utils/shippingUtils.ts` lines 18-36: the
haversine great-circle distance with Earth radius 6371 km. -/
noncomputable def calculateDistanceKm (lat1 lon1 lat2 lon2 : ℝ) : ℝ :=
  let dLat := degreesToRadians (lat2 - lat1)
  let dLon := degreesToRadians (lon2 - lon1)
  let radLat1 := degreesToRadians lat1
  let radLat2 := degreesToRadians lat2
  let a := Real.sin (dLat / 2) * Real.sin (dLat / 2) +
    Real.cos radLat1 * Real.cos radLat2 * Real.sin (dLon / 2) * Real.sin (dLon / 2)
  let c := 2 * atan2 (Real.sqrt a) (Real.sqrt (1 - a))
  6371 * c

/-- The per-warehouse cost of `getWarehousesSortedByShippingCost`
(`warehouseRepository.ts` lines 144-156): `Math.round(distanceKm * rate)`,
the rate being the configured integer cents per kg per km. -/
noncomputable def warehouseShippingCost (ratePerKgPerKm : Int)
    (shippingAddrLatitude shippingAddrLongitude : ℝ) (w : WarehouseRow) : Int :=
  round (calculateDistanceKm w.latitude w.longitude
    shippingAddrLatitude shippingAddrLongitude * (ratePerKgPerKm : ℝ))

/-- The map-and-sort of `getWarehousesSortedByShippingCost`
(`warehouseRepository.ts` lines 125-168), parameterized by the per-warehouse
cost computation: builds one `WarehouseShippingInfo` per warehouse and sorts
ascending by cost with JavaScript's stable `Array.prototype.sort`. -/
def getWarehousesSortedByShippingCost (costOf : WarehouseRow → Int)
    (allWarehouses : List WarehouseRow) : List WarehouseShippingInfo :=
  (allWarehouses.map (fun w => ⟨w.id, costOf w⟩)).mergeSort
    (fun a b => decide (a.shippingCostCentsPerKg ≤ b.shippingCostCentsPerKg))

/-- `getWarehousesSortedByShippingCost` with the haversine-based cost of the
source plugged in. -/
noncomputable def getWarehousesSortedByShippingCostReal (ratePerKgPerKm : Int)
    (shippingAddrLatitude shippingAddrLongitude : ℝ)
    (allWarehouses : List WarehouseRow) : List WarehouseShippingInfo :=
  getWarehousesSortedByShippingCost
    (warehouseShippingCost ratePerKgPerKm shippingAddrLatitude shippingAddrLongitude)
    allWarehouses

/-! ## Orchestrators (`orderService.ts` `createWalkInOrder`,
`reservationService` `checkFeasibility`) -/

/-- A row of the `orders` table as inserted by `createOrderAndLines`. -/
structure OrderRow where
  orderId : String
  shippingAddrLatitude : ℝ
  shippingAddrLongitude : ℝ
  totalPriceCents : Int
  discountCents : Int
  shippingCostCents : Int

/-- A row of the `orderLines` table as inserted by `createOrderAndLines`. -/
structure OrderLineRow where
  orderId : String
  productId : String
  warehouseId : String
  quantity : Int
  unitPriceCents : Int
  discountPercentage : ℚ
deriving DecidableEq, Repr

/-- The database state visible to the engine. -/
structure DBState where
  products : List ProductRow
  volumeDiscounts : List VolumeDiscountRow
  warehouses : List WarehouseRow
  inventory : List InventoryRow
  reservationLines : List ReservationLineRow
  inventoryLog : List InventoryLogRow
  orders : List OrderRow
  orderLines : List OrderLineRow

/-- The typed failures surfaced by the two services (`customErrors.ts`):
`ProductNotFoundError`, `InsufficientInventoryError` (translated from the
allocator's `InventoryAllocationError`), `ShippingCostExceededError`, and
the plain `Error` thrown by a conditional decrement matching zero rows. -/
inductive OrderError where
  | productNotFound (productId : String)
  | insufficientInventory (e : InventoryAllocationError)
  | shippingCostExceeded (totalShippingCostCents discountedTotalCents : Int)
  | internalInventoryUpdateFailure (u : InventoryUpdateItem)
deriving DecidableEq, Repr

/-- A parsed `CreateOrderRequest` (coordinates already `parseFloat`ed). -/
structure CreateOrderRequest where
  shippingLat : ℝ
  shippingLng : ℝ
  requestedProducts : List OrderRequestedProduct

/-- `CreateOrderResponse` from `schemas/order.ts`. -/
structure CreateOrderResponse where
  orderId : String
  totalPriceCents : Int
  discountCents : Int
  shippingCostCents : Int
deriving DecidableEq, Repr

/-- `CheckReservationResponse` from `schemas/reservation.ts` (message text
omitted). -/
structure CheckReservationResponse where
  isValid : Bool
  totalPriceCents : Int
  discountCents : Int
  shippingCostCents : Int
deriving DecidableEq, Repr

/-- The `db.transaction` body of `createWalkInOrder` (`orderService.ts` lines
38-96): locked inventory read, reservation read, allocation (translating
`InventoryAllocationError` to `InsufficientInventoryError`), shipping
validation, conditional decrements with audit logs, and the insertion of the
order header and one order line per allocation line. -/
def createWalkInOrderTxBody (st : DBState)
    (productDetails : List (String × ProductCostDetails))
    (sortedWarehouses : List WarehouseShippingInfo) (productIds : List String)
    (overallTotalPriceCents overallTotalDiscountCents : Int)
    (req : CreateOrderRequest) (orderId : String) :
    Except OrderError (CreateOrderResponse × DBState) :=
  let inv := getInventoryForProducts st.inventory productIds
  let res := getReservedInventoryByWarehouseForProducts st.reservationLines productIds
  match performInventoryAllocation productDetails sortedWarehouses inv res with
  | .error e => .error (.insufficientInventory e)
  | .ok (allocatedOrderLines, inventoryUpdates) =>
    let totalShippingCostCents := calculateTotalShippingCost allocatedOrderLines
    if isShippingCostValid totalShippingCostCents overallTotalPriceCents
        overallTotalDiscountCents then
      match updateInventoryAndLogChanges st.inventory st.inventoryLog
          inventoryUpdates orderId with
      | .error u => .error (.internalInventoryUpdateFailure u)
      | .ok (inventory', inventoryLog') =>
        .ok (⟨orderId, overallTotalPriceCents, overallTotalDiscountCents,
            totalShippingCostCents⟩,
          { st with
            inventory := inventory'
            inventoryLog := inventoryLog'
            orders := st.orders ++ [⟨orderId, req.shippingLat, req.shippingLng,
              overallTotalPriceCents, overallTotalDiscountCents,
              totalShippingCostCents⟩]
            orderLines := st.orderLines ++ allocatedOrderLines.map (fun l =>
              ⟨orderId, l.productId, l.warehouseId, l.allocatedQuantity,
                l.unitPriceCents, l.discountPercentage⟩) })
    else
      .error (.shippingCostExceeded totalShippingCostCents
        (overallTotalPriceCents - overallTotalDiscountCents))

/-- `createWalkInOrder` from `orderService.ts` lines 19-97, parameterized by
the warehouse cost computation (haversine in the source) and the generated
order id (`uuidv4()` in the source).  Pricing and ranking run before the
transaction; the transaction body either commits its writes or, on any
error, rolls back so the state is unchanged. -/
def createWalkInOrder (costOf : WarehouseRow → Int) (orderId : String)
    (st : DBState) (req : CreateOrderRequest) :
    Except OrderError CreateOrderResponse × DBState :=
  let productIds := req.requestedProducts.map (·.productId)
  match calculateProductCostsWithDiscounts st.products st.volumeDiscounts
      req.requestedProducts with
  | .error pid => (.error (.productNotFound pid), st)
  | .ok productDetails =>
    let sortedWarehouses := getWarehousesSortedByShippingCost costOf st.warehouses
    let totals := calculateOverallProductTotals productDetails
    match createWalkInOrderTxBody st productDetails sortedWarehouses productIds
        totals.1 totals.2 req orderId with
    | .ok (resp, st') => (.ok resp, st')
    | .error e => (.error e, st)

/-- `checkFeasibility` from the reservation service: the same pricing,
ranking, locked read and allocation pipeline as `createWalkInOrder`, never
writing; shipping-cost rejection is reported as `isValid := false` rather
than an error, while product-not-found and insufficient-inventory are
surfaced as errors. -/
def checkFeasibility (costOf : WarehouseRow → Int) (st : DBState)
    (req : CreateOrderRequest) : Except OrderError CheckReservationResponse :=
  let productIds := req.requestedProducts.map (·.productId)
  match calculateProductCostsWithDiscounts st.products st.volumeDiscounts
      req.requestedProducts with
  | .error pid => .error (.productNotFound pid)
  | .ok productDetails =>
    let sortedWarehouses := getWarehousesSortedByShippingCost costOf st.warehouses
    let totals := calculateOverallProductTotals productDetails
    let inv := getInventoryForProducts st.inventory productIds
    let res := getReservedInventoryByWarehouseForProducts st.reservationLines productIds
    match performInventoryAllocation productDetails sortedWarehouses inv res with
    | .error e => .error (.insufficientInventory e)
    | .ok (allocatedOrderLines, _) =>
      let totalShippingCostCents := calculateTotalShippingCost allocatedOrderLines
      .ok ⟨isShippingCostValid totalShippingCostCents totals.1 totals.2,
        totals.1, totals.2, totalShippingCostCents⟩

/-- The discount table of the seeded example used in the spec's discount
scenario: thresholds 25/50/100/250 at 5/10/15/20 percent, in ascending
order as stored. -/
def exampleDiscounts : List VolumeDiscountRow :=
  [⟨"p", 25, 5⟩, ⟨"p", 50, 10⟩, ⟨"p", 100, 15⟩, ⟨"p", 250, 20⟩]

/-- The total stock of a product available for allocation over a ranked
warehouse list: `Σ max(0, physicalStock - reservedStock)` over the list. -/
def totalAvailable (ws : List WarehouseShippingInfo)
    (inv res : String → String → Int) (productId : String) : Int :=
  (ws.map (fun w =>
    max 0 (inv w.warehouseId productId - res w.warehouseId productId))).sum

/-- Concrete cost details used for witness instantiations: 8 units requested
at 100 cents, 500 g, no discount. -/
def exampleDetails : ProductCostDetails := ⟨8, 100, 500, 0, 800, 0, 800⟩

/-- A ranked two-warehouse list used for witness instantiations. -/
def exampleWarehouses : List WarehouseShippingInfo := [⟨"W2", 3⟩, ⟨"W1", 7⟩]

/-- Concrete locked inventory snapshot used for witness instantiations. -/
def exampleInv : String → String → Int := fun w p =>
  if w = "W1" ∧ p = "A" then 10 else if w = "W2" ∧ p = "A" then 5 else 0

/-- Concrete reservation snapshot used for witness instantiations. -/
def exampleRes : String → String → Int := fun w p =>
  if w = "W2" ∧ p = "A" then 2 else 0

/-! ## General helper lemmas -/

theorem foldl_add_eq_sum {α : Type} (f : α → Int) (l : List α) (init : Int) :
    l.foldl (fun acc x => acc + f x) init = init + (l.map f).sum := by
  induction l generalizing init with
  | nil => simp
  | cons x xs ih => simp only [List.foldl_cons, List.map_cons, List.sum_cons, ih]; ring

/-! ## C3: shipping-cost totalling and validation -/

/-- C3: the total shipping cost is the sum over allocation lines of
`ceil(allocatedQuantity × weightGrams / 1000 × shippingCostCentsPerKg)`;
for a positive discounted total, validation passes iff the total shipping is
at most `floor(0.15 × (totalPriceCents − totalDiscountCents))`; for a
discounted total ≤ 0, validation passes iff the total shipping is exactly 0. -/
theorem shipping_total_and_validity_spec (lines : List AllocatedOrderLine)
    (s p d : Int) :
    calculateTotalShippingCost lines =
      (lines.map (fun l =>
        ⌈((l.allocatedQuantity * l.productWeightGrams : Int) : ℚ) / 1000 *
          (l.shippingCostCentsPerKg : ℚ)⌉)).sum
    ∧ (0 < p - d →
        (isShippingCostValid s p d = true ↔
          s ≤ ⌊(15 : ℚ) / 100 * ((p - d : Int) : ℚ)⌋))
    ∧ (p - d ≤ 0 → (isShippingCostValid s p d = true ↔ s = 0)) := by
  refine ⟨?_, ?_, ?_⟩
  · simpa using foldl_add_eq_sum lineShippingCostCents lines 0
  · intro hpos
    rw [isShippingCostValid]
    simp only [if_neg (by omega : ¬ p - d ≤ 0), decide_eq_true_eq]
  · intro hnonpos
    rw [isShippingCostValid]
    simp only [if_pos hnonpos, beq_iff_eq]

/-- C3 witness: instantiation at a positive discounted total. -/
theorem shipping_total_and_validity_spec_witness :
    (0 : Int) < 135 - 0 ∧
      (isShippingCostValid 20 135 0 = true ↔
        (20 : Int) ≤ ⌊(15 : ℚ) / 100 * ((135 - 0 : Int) : ℚ)⌋) :=
  ⟨by decide, (shipping_total_and_validity_spec [] 20 135 0).2.1 (by decide)⟩

/-! ## C8: monotonicity of `isShippingCostValid` in the cost argument -/

/-- C8 counterexample: as stated over all integer costs the claim fails.
With price 0 and discount 0 the discounted total is ≤ 0, so validity means
`cost == 0`: increasing the cost from −1 (invalid) to 0 (valid) flips
false→true. -/
theorem shipping_valid_antitone_counterexample :
    (-1 : Int) ≤ 0 ∧ isShippingCostValid (-1) 0 0 = false ∧
      isShippingCostValid 0 0 0 = true := by decide

/-- C8 amended: for non-negative costs (every cost produced by
`calculateTotalShippingCost` on real lines is one), increasing the cost can
only flip the validation from true to false, never from false to true. -/
theorem shipping_valid_antitone_on_nonneg (p d c₁ c₂ : Int) (h0 : 0 ≤ c₁)
    (h12 : c₁ ≤ c₂) (h2 : isShippingCostValid c₂ p d = true) :
    isShippingCostValid c₁ p d = true := by
  rw [isShippingCostValid] at h2 ⊢
  by_cases h : p - d ≤ 0
  · simp only [if_pos h, beq_iff_eq] at h2 ⊢
    omega
  · simp only [if_neg h, decide_eq_true_eq] at h2 ⊢
    omega

/-- C8 witness for the amended theorem. -/
theorem shipping_valid_antitone_on_nonneg_witness :
    (0 : Int) ≤ 0 ∧ (0 : Int) ≤ 0 ∧ isShippingCostValid 0 50 50 = true ∧
      isShippingCostValid 0 50 50 = true :=
  ⟨by decide, by decide, by decide,
    shipping_valid_antitone_on_nonneg 50 50 0 0 (by decide) (by decide) (by decide)⟩

/-! ## C5: volume-discount resolution and rounding -/

/-- C5: for tiers listed by strictly descending threshold (at most one tier
per threshold), the resolved percentage is 0 when no threshold is ≤ the
quantity, and otherwise the percentage of the tier with the highest
threshold ≤ the quantity; the discount amount is
`totalCost × pct/100` rounded half-up (`⌊x + 1/2⌋`) with
`totalCost = unitPrice × quantity`; and on the 25/50/100/250 → 5/10/15/20
table, quantities 24, 25, 49, 100 resolve to 0, 5, 5, 15 percent. -/
theorem discount_resolution_spec (tiers : List VolumeDiscountRow) (q : Int)
    (hdesc : tiers.Pairwise (fun a b => b.threshold < a.threshold)) :
    ((∀ t ∈ tiers, q < t.threshold) → resolveDiscountPercentage tiers q = 0)
    ∧ (∀ t ∈ tiers, t.threshold ≤ q →
        (∀ t' ∈ tiers, t'.threshold ≤ q → t'.threshold ≤ t.threshold) →
        resolveDiscountPercentage tiers q = t.discountPercentage)
    ∧ (∀ (p : ProductRow) (quantity : Int),
        (mkProductCostDetails p tiers quantity).totalDiscountCents =
          ⌊((p.unitPriceCents * quantity : Int) : ℚ) *
            (resolveDiscountPercentage tiers quantity / 100) + 1 / 2⌋)
    ∧ (resolveDiscountPercentage (tiersForProduct exampleDiscounts "p") 24 = 0
        ∧ resolveDiscountPercentage (tiersForProduct exampleDiscounts "p") 25 = 5
        ∧ resolveDiscountPercentage (tiersForProduct exampleDiscounts "p") 49 = 5
        ∧ resolveDiscountPercentage (tiersForProduct exampleDiscounts "p") 100 = 15) := by
  refine ⟨?_, ?_, ?_, ?_⟩
  · intro hnone
    clear hdesc
    induction tiers with
    | nil => rfl
    | cons t ts ih =>
      rw [resolveDiscountPercentage]
      rw [if_neg (by have := hnone t (by simp); omega)]
      exact ih (fun t' ht' => hnone t' (List.mem_cons_of_mem t ht'))
  · intro t₀ ht₀ hle hmax
    induction tiers with
    | nil => exact absurd ht₀ (List.not_mem_nil t₀)
    | cons t ts ih =>
      rcases List.mem_cons.mp ht₀ with h | h
      · subst h
        rw [resolveDiscountPercentage, if_pos hle]
      · have hts : t₀.threshold < t.threshold :=
          (List.pairwise_cons.mp hdesc).1 t₀ h
        have hnot : ¬ t.threshold ≤ q := by
          intro habs
          have := hmax t (List.mem_cons_self t ts) habs
          omega
        rw [resolveDiscountPercentage, if_neg hnot]
        exact ih (List.pairwise_cons.mp hdesc).2 h
          (fun t' ht' h' => hmax t' (List.mem_cons_of_mem t ht') h')
  · intro p quantity
    rw [mkProductCostDetails]
    exact round_eq _
  · refine ⟨?_, ?_, ?_, ?_⟩ <;> decide

/-- C5 witness: the descending-threshold hypothesis holds for the sorted
example table. -/
theorem discount_resolution_spec_witness :
    (tiersForProduct exampleDiscounts "p").Pairwise
        (fun a b => b.threshold < a.threshold) ∧
      resolveDiscountPercentage (tiersForProduct exampleDiscounts "p") 25 = 5 :=
  ⟨by decide, (discount_resolution_spec (tiersForProduct exampleDiscounts "p") 25
      (by decide)).2.2.2.2.1⟩

/-! ## C6: the conditional decrement and audit log -/

/-- The row predicate of the conditional `UPDATE` for one update item. -/
theorem applyInventoryUpdate_row_pred (u : InventoryUpdateItem) (r : InventoryRow) :
    (r.productId == u.productId && r.warehouseId == u.warehouseId &&
        decide (u.quantityToDecrement ≤ r.quantity)) = true ↔
      r.productId = u.productId ∧ r.warehouseId = u.warehouseId ∧
        u.quantityToDecrement ≤ r.quantity := by
  simp [Bool.and_assoc]

theorem applyInventoryUpdate_some {rows : List InventoryRow}
    {u : InventoryUpdateItem} {rows₂ : List InventoryRow} {nq : Int}
    (h : applyInventoryUpdate rows u = some (rows₂, nq)) :
    (∃ m ∈ rows,
        (m.productId = u.productId ∧ m.warehouseId = u.warehouseId ∧
          u.quantityToDecrement ≤ m.quantity) ∧
        nq = m.quantity - u.quantityToDecrement)
    ∧ rows₂ = rows.map (fun r =>
        if r.productId == u.productId && r.warehouseId == u.warehouseId &&
            decide (u.quantityToDecrement ≤ r.quantity)
        then { r with quantity := r.quantity - u.quantityToDecrement } else r) := by
  rw [applyInventoryUpdate] at h
  cases hfind : rows.find? (fun r =>
      r.productId == u.productId && r.warehouseId == u.warehouseId &&
        decide (u.quantityToDecrement ≤ r.quantity)) with
  | none => rw [hfind] at h; exact absurd h (by simp)
  | some m =>
    rw [hfind] at h
    simp only [Option.some.injEq, Prod.mk.injEq] at h
    obtain ⟨h₁, h₂⟩ := h
    have hp := List.find?_some hfind
    simp only [applyInventoryUpdate_row_pred] at hp
    exact ⟨⟨m, List.mem_of_find?_eq_some hfind, hp, h₂.symm⟩, h₁.symm⟩

theorem applyInventoryUpdate_none {rows : List InventoryRow}
    {u : InventoryUpdateItem} :
    applyInventoryUpdate rows u = none ↔
      ∀ r ∈ rows, ¬(r.productId = u.productId ∧ r.warehouseId = u.warehouseId ∧
        u.quantityToDecrement ≤ r.quantity) := by
  rw [applyInventoryUpdate]
  cases hfind : rows.find? (fun r =>
      r.productId == u.productId && r.warehouseId == u.warehouseId &&
        decide (u.quantityToDecrement ≤ r.quantity)) with
  | none =>
    simp only [List.find?_eq_none] at hfind
    simpa using fun r hr => by
      have := hfind r hr
      rw [applyInventoryUpdate_row_pred] at this
      simpa using this
  | some m =>
    have hp := List.find?_some hfind
    simp only [applyInventoryUpdate_row_pred] at hp
    simp only [reduceCtorEq, false_iff, not_forall]
    exact ⟨m, List.mem_of_find?_eq_some hfind, fun hn => hn hp⟩

theorem update_ok_nonneg_log (updates : List InventoryUpdateItem) :
    ∀ (rows : List InventoryRow) (log : List InventoryLogRow) (orderId : String)
      (rows' : List InventoryRow) (log' : List InventoryLogRow),
      updateInventoryAndLogChanges rows log updates orderId = .ok (rows', log') →
      ((∀ r ∈ rows, 0 ≤ r.quantity) → ∀ r' ∈ rows', 0 ≤ r'.quantity)
      ∧ ∃ emitted, log' = log ++ emitted ∧
          List.Forall₂ (fun (u : InventoryUpdateItem) (e : InventoryLogRow) =>
              e.productId = u.productId ∧ e.warehouseId = u.warehouseId ∧
              e.quantityChange = -u.quantityToDecrement ∧ 0 ≤ e.newQuantity ∧
              e.changeType = .ORDER_FULFILLMENT ∧ e.referenceId = orderId)
            (updates.filter (fun u => decide (0 < u.quantityToDecrement))) emitted := by
  induction updates with
  | nil =>
    intro rows log orderId rows' log' h
    rw [updateInventoryAndLogChanges] at h
    simp only [Except.ok.injEq, Prod.mk.injEq] at h
    obtain ⟨hr, hl⟩ := h
    subst hr; subst hl
    exact ⟨fun hnn => hnn, [], by simp, List.Forall₂.nil⟩
  | cons u rest ih =>
    intro rows log orderId rows' log' h
    rw [updateInventoryAndLogChanges] at h
    by_cases hle : u.quantityToDecrement ≤ 0
    · rw [if_pos hle] at h
      have hpu : decide (0 < u.quantityToDecrement) = false := by
        simp only [decide_eq_false_iff_not]; omega
      have hfil : (u :: rest).filter (fun u => decide (0 < u.quantityToDecrement)) =
          rest.filter (fun u => decide (0 < u.quantityToDecrement)) := by
        simp [List.filter_cons, hpu]
      rw [hfil]
      exact ih rows log orderId rows' log' h
    · rw [if_neg hle] at h
      cases happly : applyInventoryUpdate rows u with
      | none => rw [happly] at h; exact absurd h (by simp)
      | some pair =>
        obtain ⟨rows₂, nq⟩ := pair
        rw [happly] at h
        obtain ⟨⟨m, hm, hmpred, hnq⟩, hrows₂⟩ := applyInventoryUpdate_some happly
        have hrec := ih rows₂
          (log ++ [⟨u.productId, u.warehouseId, -u.quantityToDecrement, nq,
            .ORDER_FULFILLMENT, orderId⟩]) orderId rows' log' h
        constructor
        · intro hnn
          refine hrec.1 ?_
          intro r₂ hr₂
          rw [hrows₂] at hr₂
          obtain ⟨r, hr, hfr⟩ := List.mem_map.mp hr₂
          by_cases hcond : (r.productId == u.productId &&
              r.warehouseId == u.warehouseId &&
              decide (u.quantityToDecrement ≤ r.quantity)) = true
          · rw [if_pos hcond] at hfr
            have := (applyInventoryUpdate_row_pred u r).mp hcond
            subst hfr
            show 0 ≤ r.quantity - u.quantityToDecrement
            omega
          · rw [if_neg hcond] at hfr
            subst hfr
            exact hnn r hr
        · obtain ⟨emitted', hlog', hforall⟩ := hrec.2
          refine ⟨⟨u.productId, u.warehouseId, -u.quantityToDecrement, nq,
              .ORDER_FULFILLMENT, orderId⟩ :: emitted', ?_, ?_⟩
          · rw [hlog']; simp
          · have hpu : decide (0 < u.quantityToDecrement) = true := by
              simp only [decide_eq_true_eq]; omega
            have hfil : (u :: rest).filter (fun u => decide (0 < u.quantityToDecrement)) =
                u :: rest.filter (fun u => decide (0 < u.quantityToDecrement)) := by
              simp [List.filter_cons, hpu]
            rw [hfil]
            exact List.Forall₂.cons ⟨rfl, rfl, rfl, show (0:Int) ≤ nq by omega,
              rfl, rfl⟩ hforall

theorem update_all_nonpos (updates : List InventoryUpdateItem) :
    ∀ (rows : List InventoryRow) (log : List InventoryLogRow) (orderId : String),
      (∀ u ∈ updates, u.quantityToDecrement ≤ 0) →
      updateInventoryAndLogChanges rows log updates orderId = .ok (rows, log) := by
  induction updates with
  | nil => intro rows log orderId _; rw [updateInventoryAndLogChanges]
  | cons u rest ih =>
    intro rows log orderId hall
    rw [updateInventoryAndLogChanges, if_pos (hall u (List.mem_cons_self u rest))]
    exact ih rows log orderId (fun u' hu' => hall u' (List.mem_cons_of_mem u hu'))

theorem update_insufficient_error (updates : List InventoryUpdateItem) :
    ∀ (rows : List InventoryRow) (log : List InventoryLogRow) (orderId : String),
      (∃ u ∈ updates, 0 < u.quantityToDecrement ∧
        ∀ r ∈ rows, ¬(r.productId = u.productId ∧ r.warehouseId = u.warehouseId ∧
          u.quantityToDecrement ≤ r.quantity)) →
      ∃ u', updateInventoryAndLogChanges rows log updates orderId = .error u' := by
  induction updates with
  | nil => intro rows log orderId h; obtain ⟨u, hu, -⟩ := h; exact absurd hu (List.not_mem_nil u)
  | cons u rest ih =>
    intro rows log orderId h
    obtain ⟨u₀, hu₀, hpos, hbad⟩ := h
    rw [updateInventoryAndLogChanges]
    by_cases hle : u.quantityToDecrement ≤ 0
    · rw [if_pos hle]
      have hu₀rest : u₀ ∈ rest := by
        rcases List.mem_cons.mp hu₀ with h | h
        · subst h; omega
        · exact h
      exact ih rows log orderId ⟨u₀, hu₀rest, hpos, hbad⟩
    · rw [if_neg hle]
      cases happly : applyInventoryUpdate rows u with
      | none => exact ⟨u, rfl⟩
      | some pair =>
        obtain ⟨rows₂, nq⟩ := pair
        obtain ⟨⟨m, hm, hmpred, -⟩, hrows₂⟩ := applyInventoryUpdate_some happly
        have hu₀rest : u₀ ∈ rest := by
          rcases List.mem_cons.mp hu₀ with h | h
          · subst h; exact absurd hmpred (hbad m hm)
          · exact h
        refine ih rows₂ _ orderId ⟨u₀, hu₀rest, hpos, ?_⟩
        intro r₂ hr₂ hpred₂
        rw [hrows₂] at hr₂
        obtain ⟨r, hr, hfr⟩ := List.mem_map.mp hr₂
        refine hbad r hr ?_
        by_cases hcond : (r.productId == u.productId &&
            r.warehouseId == u.warehouseId &&
            decide (u.quantityToDecrement ≤ r.quantity)) = true
        · rw [if_pos hcond] at hfr
          subst hfr
          obtain ⟨hp₂, hw₂, hq₂⟩ := hpred₂
          have hq₂' : u₀.quantityToDecrement ≤ r.quantity - u.quantityToDecrement := hq₂
          exact ⟨hp₂, hw₂, by omega⟩
        · rw [if_neg hcond] at hfr
          subst hfr
          exact hpred₂

theorem update_ok_trace (updates : List InventoryUpdateItem) :
    ∀ (rows : List InventoryRow) (log : List InventoryLogRow) (orderId : String)
      (rows' : List InventoryRow) (log' : List InventoryLogRow),
      updateInventoryAndLogChanges rows log updates orderId = .ok (rows', log') →
      ∃ (tables : Nat → List InventoryRow) (emitted : List InventoryLogRow),
        log' = log ++ emitted ∧
        tables 0 = rows ∧
        tables (updates.filter
          (fun u => decide (0 < u.quantityToDecrement))).length = rows' ∧
        emitted.length = (updates.filter
          (fun u => decide (0 < u.quantityToDecrement))).length ∧
        ∀ (i : Nat)
          (h1 : i < (updates.filter
            (fun u => decide (0 < u.quantityToDecrement))).length)
          (h2 : i < emitted.length),
          ∃ m : InventoryRow,
            m ∈ tables i ∧
            m.productId = ((updates.filter
              (fun u => decide (0 < u.quantityToDecrement))).get ⟨i, h1⟩).productId ∧
            m.warehouseId = ((updates.filter
              (fun u => decide (0 < u.quantityToDecrement))).get ⟨i, h1⟩).warehouseId ∧
            ((updates.filter (fun u => decide (0 < u.quantityToDecrement))).get
              ⟨i, h1⟩).quantityToDecrement ≤ m.quantity ∧
            applyInventoryUpdate (tables i)
              ((updates.filter (fun u => decide (0 < u.quantityToDecrement))).get
                ⟨i, h1⟩) =
              some (tables (i + 1),
                m.quantity - ((updates.filter
                  (fun u => decide (0 < u.quantityToDecrement))).get
                    ⟨i, h1⟩).quantityToDecrement) ∧
            emitted.get ⟨i, h2⟩ =
              ⟨((updates.filter (fun u => decide (0 < u.quantityToDecrement))).get
                  ⟨i, h1⟩).productId,
                ((updates.filter (fun u => decide (0 < u.quantityToDecrement))).get
                  ⟨i, h1⟩).warehouseId,
                -((updates.filter (fun u => decide (0 < u.quantityToDecrement))).get
                  ⟨i, h1⟩).quantityToDecrement,
                m.quantity - ((updates.filter
                  (fun u => decide (0 < u.quantityToDecrement))).get
                    ⟨i, h1⟩).quantityToDecrement,
                .ORDER_FULFILLMENT, orderId⟩ := by
  induction updates with
  | nil =>
    intro rows log orderId rows' log' h
    rw [updateInventoryAndLogChanges] at h
    simp only [Except.ok.injEq, Prod.mk.injEq] at h
    obtain ⟨hr, hl⟩ := h
    subst hr; subst hl
    refine ⟨fun _ => rows, [], by simp, rfl, rfl, rfl, ?_⟩
    intro i h1 h2
    exact absurd h1 (by simp)
  | cons u rest ih =>
    intro rows log orderId rows' log' h
    rw [updateInventoryAndLogChanges] at h
    by_cases hle : u.quantityToDecrement ≤ 0
    · rw [if_pos hle] at h
      have hpu : decide (0 < u.quantityToDecrement) = false := by
        simp only [decide_eq_false_iff_not]; omega
      have hfil : (u :: rest).filter (fun u => decide (0 < u.quantityToDecrement)) =
          rest.filter (fun u => decide (0 < u.quantityToDecrement)) := by
        simp [List.filter_cons, hpu]
      rw [hfil]
      exact ih rows log orderId rows' log' h
    · rw [if_neg hle] at h
      cases happly : applyInventoryUpdate rows u with
      | none => rw [happly] at h; exact absurd h (by simp)
      | some pair =>
        obtain ⟨rows₂, nq⟩ := pair
        rw [happly] at h
        obtain ⟨⟨m, hm, hmpred, hnq⟩, -⟩ := applyInventoryUpdate_some happly
        obtain ⟨tables', emitted', hlog', htab0, htabn, hlen, hstep⟩ :=
          ih rows₂
            (log ++ [⟨u.productId, u.warehouseId, -u.quantityToDecrement, nq,
              .ORDER_FULFILLMENT, orderId⟩]) orderId rows' log' h
        have hpu : decide (0 < u.quantityToDecrement) = true := by
          simp only [decide_eq_true_eq]; omega
        have hfil : (u :: rest).filter (fun u => decide (0 < u.quantityToDecrement)) =
            u :: rest.filter (fun u => decide (0 < u.quantityToDecrement)) := by
          simp [List.filter_cons, hpu]
        rw [hfil]
        refine ⟨fun i => match i with | 0 => rows | j + 1 => tables' j,
          ⟨u.productId, u.warehouseId, -u.quantityToDecrement, nq,
            .ORDER_FULFILLMENT, orderId⟩ :: emitted', ?_, rfl, ?_, ?_, ?_⟩
        · rw [hlog']; simp
        · show tables' (rest.filter
            (fun u => decide (0 < u.quantityToDecrement))).length = rows'
          exact htabn
        · simp [hlen]
        · intro i h1 h2
          cases i with
          | zero =>
            refine ⟨m, ?_, hmpred.1, hmpred.2.1, hmpred.2.2, ?_, ?_⟩
            · show m ∈ rows
              exact hm
            · show applyInventoryUpdate rows u =
                some (tables' 0, m.quantity - u.quantityToDecrement)
              rw [htab0, ← hnq]
              exact happly
            · show (⟨u.productId, u.warehouseId, -u.quantityToDecrement, nq,
                  .ORDER_FULFILLMENT, orderId⟩ : InventoryLogRow) =
                ⟨u.productId, u.warehouseId, -u.quantityToDecrement,
                  m.quantity - u.quantityToDecrement, .ORDER_FULFILLMENT, orderId⟩
              rw [hnq]
          | succ j =>
            exact hstep j (Nat.lt_of_succ_lt_succ h1) (Nat.lt_of_succ_lt_succ h2)

/-- C6: for the stock-ledger write `updateInventoryAndLogChanges`:
(1) on success, non-negative inventory quantities stay non-negative (each
decrement was conditioned on `quantity ≥ amount` within the same statement),
and the log is extended by exactly one row per positive-amount item, in
order, carrying the negated amount as signed delta, a non-negative resulting
quantity, change type `ORDER_FULFILLMENT` and the reference id; moreover
the run is characterized by a chain of intermediate inventory tables: the
i-th positive item is applied by the conditional decrement to the i-th
table, producing the (i+1)-th, and the i-th appended log row's
`newQuantity` equals the matched (decremented) row's quantity minus the
amount — the resulting quantity of that decrement;
(2) items with non-positive amounts are skipped, leaving state and log
untouched; (3) if some positive item has no matching row with sufficient
stock, the whole operation throws. -/
theorem updateInventoryAndLogChanges_spec (rows : List InventoryRow)
    (log : List InventoryLogRow) (updates : List InventoryUpdateItem)
    (orderId : String) :
    (∀ rows' log',
      updateInventoryAndLogChanges rows log updates orderId = .ok (rows', log') →
      ((∀ r ∈ rows, 0 ≤ r.quantity) → ∀ r' ∈ rows', 0 ≤ r'.quantity)
      ∧ (∃ emitted, log' = log ++ emitted ∧
          List.Forall₂ (fun (u : InventoryUpdateItem) (e : InventoryLogRow) =>
              e.productId = u.productId ∧ e.warehouseId = u.warehouseId ∧
              e.quantityChange = -u.quantityToDecrement ∧ 0 ≤ e.newQuantity ∧
              e.changeType = .ORDER_FULFILLMENT ∧ e.referenceId = orderId)
            (updates.filter (fun u => decide (0 < u.quantityToDecrement))) emitted)
      ∧ (∃ (tables : Nat → List InventoryRow) (emitted : List InventoryLogRow),
          log' = log ++ emitted ∧
          tables 0 = rows ∧
          tables (updates.filter
            (fun u => decide (0 < u.quantityToDecrement))).length = rows' ∧
          emitted.length = (updates.filter
            (fun u => decide (0 < u.quantityToDecrement))).length ∧
          ∀ (i : Nat)
            (h1 : i < (updates.filter
              (fun u => decide (0 < u.quantityToDecrement))).length)
            (h2 : i < emitted.length),
            ∃ m : InventoryRow,
              m ∈ tables i ∧
              m.productId = ((updates.filter
                (fun u => decide (0 < u.quantityToDecrement))).get
                  ⟨i, h1⟩).productId ∧
              m.warehouseId = ((updates.filter
                (fun u => decide (0 < u.quantityToDecrement))).get
                  ⟨i, h1⟩).warehouseId ∧
              ((updates.filter (fun u => decide (0 < u.quantityToDecrement))).get
                ⟨i, h1⟩).quantityToDecrement ≤ m.quantity ∧
              applyInventoryUpdate (tables i)
                ((updates.filter (fun u => decide (0 < u.quantityToDecrement))).get
                  ⟨i, h1⟩) =
                some (tables (i + 1),
                  m.quantity - ((updates.filter
                    (fun u => decide (0 < u.quantityToDecrement))).get
                      ⟨i, h1⟩).quantityToDecrement) ∧
              emitted.get ⟨i, h2⟩ =
                ⟨((updates.filter (fun u => decide (0 < u.quantityToDecrement))).get
                    ⟨i, h1⟩).productId,
                  ((updates.filter (fun u => decide (0 < u.quantityToDecrement))).get
                    ⟨i, h1⟩).warehouseId,
                  -((updates.filter (fun u => decide (0 < u.quantityToDecrement))).get
                    ⟨i, h1⟩).quantityToDecrement,
                  m.quantity - ((updates.filter
                    (fun u => decide (0 < u.quantityToDecrement))).get
                      ⟨i, h1⟩).quantityToDecrement,
                  .ORDER_FULFILLMENT, orderId⟩))
    ∧ ((∀ u ∈ updates, u.quantityToDecrement ≤ 0) →
        updateInventoryAndLogChanges rows log updates orderId = .ok (rows, log))
    ∧ ((∃ u ∈ updates, 0 < u.quantityToDecrement ∧
          ∀ r ∈ rows, ¬(r.productId = u.productId ∧ r.warehouseId = u.warehouseId ∧
            u.quantityToDecrement ≤ r.quantity)) →
        ∃ u', updateInventoryAndLogChanges rows log updates orderId = .error u') :=
  ⟨fun rows' log' h =>
      ⟨(update_ok_nonneg_log updates rows log orderId rows' log' h).1,
        (update_ok_nonneg_log updates rows log orderId rows' log' h).2,
        update_ok_trace updates rows log orderId rows' log' h⟩,
    update_all_nonpos updates rows log orderId,
    update_insufficient_error updates rows log orderId⟩

/-- C6 witness: a non-positive item is skipped without touching anything. -/
theorem updateInventoryAndLogChanges_spec_witness :
    (∀ u ∈ [(⟨"A", "W1", 0⟩ : InventoryUpdateItem)], u.quantityToDecrement ≤ 0) ∧
      updateInventoryAndLogChanges [⟨"A", "W1", 5⟩] [] [⟨"A", "W1", 0⟩] "ord" =
        .ok ([⟨"A", "W1", 5⟩], []) :=
  ⟨by decide,
    (updateInventoryAndLogChanges_spec [⟨"A", "W1", 5⟩] [] [⟨"A", "W1", 0⟩]
      "ord").2.1 (by decide)⟩

/-! ## Allocator lemmas (`performInventoryAllocation`) -/

theorem totalAvailable_nonneg (ws : List WarehouseShippingInfo)
    (inv res : String → String → Int) (pid : String) :
    0 ≤ totalAvailable ws inv res pid := by
  refine List.sum_nonneg ?_
  intro x hx
  obtain ⟨w, -, hw⟩ := List.mem_map.mp hx
  omega

theorem allocateProduct_remaining (pid : String) (d : ProductCostDetails)
    (inv res : String → String → Int) :
    ∀ (ws : List WarehouseShippingInfo) (r : Int), 0 ≤ r →
      (allocateProduct pid d inv res ws r).2.2 =
        max 0 (r - totalAvailable ws inv res pid) := by
  intro ws
  induction ws with
  | nil => intro r hr; rw [allocateProduct]; simp [totalAvailable]; omega
  | cons w ws ih =>
    intro r hr
    have hT := totalAvailable_nonneg ws inv res pid
    have hTc : totalAvailable (w :: ws) inv res pid =
        max 0 (inv w.warehouseId pid - res w.warehouseId pid) +
          totalAvailable ws inv res pid := by
      simp [totalAvailable]
    by_cases hr0 : r ≤ 0
    · rw [allocateProduct, if_pos hr0]
      simp only [hTc]
      omega
    · rw [allocateProduct, if_neg hr0]
      by_cases ha : 0 < max 0 (inv w.warehouseId pid - res w.warehouseId pid)
      · simp only [if_pos ha]
        rw [ih (r - min r (max 0 (inv w.warehouseId pid - res w.warehouseId pid)))
          (by omega)]
        rw [hTc]
        omega
      · simp only [if_neg ha]
        rw [ih r hr, hTc]
        omega

theorem allocateProduct_lines_sum (pid : String) (d : ProductCostDetails)
    (inv res : String → String → Int) :
    ∀ (ws : List WarehouseShippingInfo) (r : Int),
      (((allocateProduct pid d inv res ws r).1.map (·.allocatedQuantity)).sum) =
        r - (allocateProduct pid d inv res ws r).2.2 := by
  intro ws
  induction ws with
  | nil => intro r; rw [allocateProduct]; simp
  | cons w ws ih =>
    intro r
    by_cases hr0 : r ≤ 0
    · rw [allocateProduct, if_pos hr0]; simp
    · rw [allocateProduct, if_neg hr0]
      by_cases ha : 0 < max 0 (inv w.warehouseId pid - res w.warehouseId pid)
      · simp only [if_pos ha, List.map_cons, List.sum_cons]
        rw [ih (r - min r (max 0 (inv w.warehouseId pid - res w.warehouseId pid)))]
        omega
      · simp only [if_neg ha]
        exact ih r

theorem allocateProduct_updates_eq (pid : String) (d : ProductCostDetails)
    (inv res : String → String → Int) :
    ∀ (ws : List WarehouseShippingInfo) (r : Int),
      (allocateProduct pid d inv res ws r).2.1 =
        (allocateProduct pid d inv res ws r).1.map
          (fun l => (⟨l.productId, l.warehouseId, l.allocatedQuantity⟩ :
            InventoryUpdateItem)) := by
  intro ws
  induction ws with
  | nil => intro r; rw [allocateProduct]; simp
  | cons w ws ih =>
    intro r
    by_cases hr0 : r ≤ 0
    · rw [allocateProduct, if_pos hr0]; simp
    · rw [allocateProduct, if_neg hr0]
      by_cases ha : 0 < max 0 (inv w.warehouseId pid - res w.warehouseId pid)
      · simp only [if_pos ha, List.map_cons]
        rw [ih]
      · simp only [if_neg ha]
        exact ih r

theorem allocateProduct_lines_mem (pid : String) (d : ProductCostDetails)
    (inv res : String → String → Int) :
    ∀ (ws : List WarehouseShippingInfo) (r : Int) (l : AllocatedOrderLine),
      l ∈ (allocateProduct pid d inv res ws r).1 →
      l.productId = pid ∧
      0 < l.allocatedQuantity ∧
      0 < inv l.warehouseId pid - res l.warehouseId pid ∧
      l.allocatedQuantity ≤ inv l.warehouseId pid - res l.warehouseId pid := by
  intro ws
  induction ws with
  | nil => intro r l hl; rw [allocateProduct] at hl; exact absurd hl (List.not_mem_nil l)
  | cons w ws ih =>
    intro r l hl
    by_cases hr0 : r ≤ 0
    · rw [allocateProduct, if_pos hr0] at hl
      exact absurd hl (List.not_mem_nil l)
    · rw [allocateProduct, if_neg hr0] at hl
      by_cases ha : 0 < max 0 (inv w.warehouseId pid - res w.warehouseId pid)
      · simp only [if_pos ha] at hl
        rcases List.mem_cons.mp hl with h | h
        · subst h
          refine ⟨rfl, ?_, ?_, ?_⟩
          · show 0 < min r (max 0 (inv w.warehouseId pid - res w.warehouseId pid))
            omega
          · show 0 < inv w.warehouseId pid - res w.warehouseId pid
            omega
          · show min r (max 0 (inv w.warehouseId pid - res w.warehouseId pid)) ≤
              inv w.warehouseId pid - res w.warehouseId pid
            omega
        · exact ih _ l h
      · simp only [if_neg ha] at hl
        exact ih r l hl

theorem allocateProduct_warehouseIds_sublist (pid : String) (d : ProductCostDetails)
    (inv res : String → String → Int) :
    ∀ (ws : List WarehouseShippingInfo) (r : Int),
      List.Sublist ((allocateProduct pid d inv res ws r).1.map (·.warehouseId))
        (ws.map (·.warehouseId)) := by
  intro ws
  induction ws with
  | nil => intro r; rw [allocateProduct]; simp
  | cons w ws ih =>
    intro r
    by_cases hr0 : r ≤ 0
    · rw [allocateProduct, if_pos hr0]; simp
    · rw [allocateProduct, if_neg hr0]
      by_cases ha : 0 < max 0 (inv w.warehouseId pid - res w.warehouseId pid)
      · simp only [if_pos ha, List.map_cons]
        exact List.Sublist.cons₂ _ (ih _)
      · simp only [if_neg ha]
        exact List.Sublist.cons _ (ih r)

theorem performInventoryAllocation_lines_mem :
    ∀ (pds : List (String × ProductCostDetails)) (ws : List WarehouseShippingInfo)
      (inv res : String → String → Int) (lines : List AllocatedOrderLine)
      (updates : List InventoryUpdateItem),
      performInventoryAllocation pds ws inv res = .ok (lines, updates) →
      ∀ l ∈ lines, l.productId ∈ pds.map Prod.fst ∧
        0 < l.allocatedQuantity ∧
        0 < inv l.warehouseId l.productId - res l.warehouseId l.productId ∧
        l.allocatedQuantity ≤ inv l.warehouseId l.productId - res l.warehouseId l.productId := by
  intro pds
  induction pds with
  | nil =>
    intro ws inv res lines updates h l hl
    rw [performInventoryAllocation] at h
    simp only [Except.ok.injEq, Prod.mk.injEq] at h
    obtain ⟨hl', -⟩ := h
    subst hl'
    exact absurd hl (List.not_mem_nil l)
  | cons pd rest ih =>
    obtain ⟨pid, d⟩ := pd
    intro ws inv res lines updates h l hl
    rw [performInventoryAllocation] at h
    by_cases h0 : 0 < (allocateProduct pid d inv res ws d.requestedQuantity).2.2
    · rw [if_pos h0] at h; exact absurd h (by simp)
    · rw [if_neg h0] at h
      cases hrec : performInventoryAllocation rest ws inv res with
      | error e => rw [hrec] at h; exact absurd h (by simp)
      | ok out =>
        obtain ⟨ls', us'⟩ := out
        rw [hrec] at h
        simp only [Except.ok.injEq, Prod.mk.injEq] at h
        obtain ⟨hl', -⟩ := h
        subst hl'
        rcases List.mem_append.mp hl with hmem | hmem
        · obtain ⟨hpid, hq, hd, hle⟩ :=
            allocateProduct_lines_mem pid d inv res ws d.requestedQuantity l hmem
          rw [hpid]
          exact ⟨by simp, hq, hd, hle⟩
        · have := ih ws inv res ls' us' hrec l hmem
          exact ⟨by simp only [List.map_cons]; exact List.mem_cons_of_mem _ this.1,
            this.2.1, this.2.2.1, this.2.2.2⟩

theorem performInventoryAllocation_updates_eq :
    ∀ (pds : List (String × ProductCostDetails)) (ws : List WarehouseShippingInfo)
      (inv res : String → String → Int) (lines : List AllocatedOrderLine)
      (updates : List InventoryUpdateItem),
      performInventoryAllocation pds ws inv res = .ok (lines, updates) →
      updates = lines.map (fun l =>
        (⟨l.productId, l.warehouseId, l.allocatedQuantity⟩ : InventoryUpdateItem)) := by
  intro pds
  induction pds with
  | nil =>
    intro ws inv res lines updates h
    rw [performInventoryAllocation] at h
    simp only [Except.ok.injEq, Prod.mk.injEq] at h
    obtain ⟨hl, hu⟩ := h
    subst hl; subst hu; rfl
  | cons pd rest ih =>
    obtain ⟨pid, d⟩ := pd
    intro ws inv res lines updates h
    rw [performInventoryAllocation] at h
    by_cases h0 : 0 < (allocateProduct pid d inv res ws d.requestedQuantity).2.2
    · rw [if_pos h0] at h; exact absurd h (by simp)
    · rw [if_neg h0] at h
      cases hrec : performInventoryAllocation rest ws inv res with
      | error e => rw [hrec] at h; exact absurd h (by simp)
      | ok out =>
        obtain ⟨ls', us'⟩ := out
        rw [hrec] at h
        simp only [Except.ok.injEq, Prod.mk.injEq] at h
        obtain ⟨hl, hu⟩ := h
        subst hl; subst hu
        rw [List.map_append, allocateProduct_updates_eq, ih ws inv res ls' us' hrec]

theorem performInventoryAllocation_sum_per_product :
    ∀ (pds : List (String × ProductCostDetails)) (ws : List WarehouseShippingInfo)
      (inv res : String → String → Int) (lines : List AllocatedOrderLine)
      (updates : List InventoryUpdateItem),
      performInventoryAllocation pds ws inv res = .ok (lines, updates) →
      (pds.map Prod.fst).Nodup →
      (∀ pd ∈ pds, 0 ≤ pd.2.requestedQuantity) →
      ∀ pd ∈ pds,
        ((lines.filter (fun l => l.productId == pd.1)).map (·.allocatedQuantity)).sum =
          pd.2.requestedQuantity := by
  intro pds
  induction pds with
  | nil =>
    intro ws inv res lines updates h hnd hq pd hpd
    exact absurd hpd (List.not_mem_nil pd)
  | cons hd0 rest ih =>
    obtain ⟨pid, d⟩ := hd0
    intro ws inv res lines updates h hnd hq pd hpd
    rw [performInventoryAllocation] at h
    by_cases h0 : 0 < (allocateProduct pid d inv res ws d.requestedQuantity).2.2
    · rw [if_pos h0] at h; exact absurd h (by simp)
    · rw [if_neg h0] at h
      cases hrec : performInventoryAllocation rest ws inv res with
      | error e => rw [hrec] at h; exact absurd h (by simp)
      | ok out =>
        obtain ⟨ls', us'⟩ := out
        rw [hrec] at h
        simp only [Except.ok.injEq, Prod.mk.injEq] at h
        obtain ⟨hl, -⟩ := h
        subst hl
        have hnd' : (rest.map Prod.fst).Nodup := (List.nodup_cons.mp hnd).2
        have hpidnot : pid ∉ rest.map Prod.fst := (List.nodup_cons.mp hnd).1
        rcases List.mem_cons.mp hpd with hcase | hcase
        · subst hcase
          -- pd is the head product
          rw [List.filter_append]
          have hown : (allocateProduct pid d inv res ws d.requestedQuantity).1.filter
              (fun l => l.productId == pid) =
              (allocateProduct pid d inv res ws d.requestedQuantity).1 := by
            refine List.filter_eq_self.mpr ?_
            intro l hl
            have := (allocateProduct_lines_mem pid d inv res ws d.requestedQuantity l hl).1
            simp [this]
          have hother : ls'.filter (fun l => l.productId == pid) = [] := by
            refine List.filter_eq_nil_iff.mpr ?_
            intro l hl
            have := (performInventoryAllocation_lines_mem rest ws inv res ls' us' hrec l hl).1
            simp only [beq_iff_eq]
            intro hcontra
            rw [hcontra] at this
            exact hpidnot this
          rw [hown, hother, List.append_nil]
          have hsum := allocateProduct_lines_sum pid d inv res ws d.requestedQuantity
          have hrem := allocateProduct_remaining pid d inv res ws d.requestedQuantity
            (hq (pid, d) (List.mem_cons_self _ _))
          have hT := totalAvailable_nonneg ws inv res pid
          show ((allocateProduct pid d inv res ws d.requestedQuantity).1.map
            (·.allocatedQuantity)).sum = d.requestedQuantity
          omega
        · -- pd is in the tail
          rw [List.filter_append]
          have hown : (allocateProduct pid d inv res ws d.requestedQuantity).1.filter
              (fun l => l.productId == pd.1) = [] := by
            refine List.filter_eq_nil_iff.mpr ?_
            intro l hl
            have hpid := (allocateProduct_lines_mem pid d inv res ws
              d.requestedQuantity l hl).1
            simp only [beq_iff_eq]
            intro hcontra
            apply hpidnot
            rw [← hpid, hcontra]
            exact List.mem_map.mpr ⟨pd, hcase, rfl⟩
          rw [hown, List.nil_append]
          exact ih ws inv res ls' us' hrec hnd'
            (fun pd' hpd' => hq pd' (List.mem_cons_of_mem _ hpd')) pd hcase

theorem performInventoryAllocation_insufficient :
    ∀ (pds : List (String × ProductCostDetails)) (ws : List WarehouseShippingInfo)
      (inv res : String → String → Int),
      (∀ pd ∈ pds, 0 ≤ pd.2.requestedQuantity) →
      (∃ pd ∈ pds, totalAvailable ws inv res pd.1 < pd.2.requestedQuantity) →
      ∃ e, performInventoryAllocation pds ws inv res = .error e ∧
        ∃ d, (e.productId, d) ∈ pds ∧
          e.requestedQuantity = d.requestedQuantity ∧
          totalAvailable ws inv res e.productId < d.requestedQuantity ∧
          e.allocatableQuantity = totalAvailable ws inv res e.productId := by
  intro pds
  induction pds with
  | nil =>
    intro ws inv res hq hex
    obtain ⟨pd, hpd, -⟩ := hex
    exact absurd hpd (List.not_mem_nil pd)
  | cons hd0 rest ih =>
    obtain ⟨pid, d⟩ := hd0
    intro ws inv res hq hex
    have hq0 : 0 ≤ d.requestedQuantity := hq (pid, d) (List.mem_cons_self _ _)
    have hrem := allocateProduct_remaining pid d inv res ws d.requestedQuantity hq0
    have hT := totalAvailable_nonneg ws inv res pid
    by_cases hdef : totalAvailable ws inv res pid < d.requestedQuantity
    · refine ⟨⟨pid, d.requestedQuantity, d.requestedQuantity -
        (allocateProduct pid d inv res ws d.requestedQuantity).2.2⟩, ?_, d, ?_, rfl, ?_, ?_⟩
      · rw [performInventoryAllocation, if_pos (by omega)]
      · exact List.mem_cons_self _ _
      · exact hdef
      · show d.requestedQuantity -
          (allocateProduct pid d inv res ws d.requestedQuantity).2.2 =
          totalAvailable ws inv res pid
        omega
    · obtain ⟨pd, hpd, hpddef⟩ := hex
      have hpdrest : pd ∈ rest := by
        rcases List.mem_cons.mp hpd with hcase | hcase
        · subst hcase; exact absurd hpddef (by simpa using hdef)
        · exact hcase
      obtain ⟨e, herr, d₀, hmem, hreq, hdef₀, halloc⟩ :=
        ih ws inv res (fun pd' hpd' => hq pd' (List.mem_cons_of_mem _ hpd'))
          ⟨pd, hpdrest, hpddef⟩
      refine ⟨e, ?_, d₀, List.mem_cons_of_mem _ hmem, hreq, hdef₀, halloc⟩
      rw [performInventoryAllocation, if_neg (by omega), herr]

/-! ## C1: full allocation on success, typed error on insufficiency -/

/-- C1: for a priced-product map (distinct keys, each requesting ≥ 1) and a
ranked warehouse list: whenever `performInventoryAllocation` returns
normally, the allocated quantities of each product's lines sum exactly to
its requested quantity; and whenever some product's total available stock
(`Σ max(0, inventory − reserved)` over the warehouses) is below its
requested quantity, the function throws `InventoryAllocationError` carrying
a deficient product's id, its requested quantity, and the quantity actually
allocatable — so no allocation result is returned. -/
theorem allocation_conserves_and_reports_insufficiency
    (pds : List (String × ProductCostDetails)) (ws : List WarehouseShippingInfo)
    (inv res : String → String → Int)
    (hkeys : (pds.map Prod.fst).Nodup)
    (hq : ∀ pd ∈ pds, 1 ≤ pd.2.requestedQuantity)
    (hws : (ws.map (·.warehouseId)).Nodup) :
    (∀ lines updates,
      performInventoryAllocation pds ws inv res = .ok (lines, updates) →
      ∀ pd ∈ pds,
        ((lines.filter (fun l => l.productId == pd.1)).map
          (·.allocatedQuantity)).sum = pd.2.requestedQuantity)
    ∧ ((∃ pd ∈ pds, totalAvailable ws inv res pd.1 < pd.2.requestedQuantity) →
        ∃ e, performInventoryAllocation pds ws inv res = .error e ∧
          ∃ d, (e.productId, d) ∈ pds ∧
            e.requestedQuantity = d.requestedQuantity ∧
            totalAvailable ws inv res e.productId < d.requestedQuantity ∧
            e.allocatableQuantity = totalAvailable ws inv res e.productId) :=
  ⟨fun lines updates h =>
      performInventoryAllocation_sum_per_product pds ws inv res lines updates h
        hkeys (fun pd hpd => by have := hq pd hpd; omega),
    fun hex =>
      performInventoryAllocation_insufficient pds ws inv res
        (fun pd hpd => by have := hq pd hpd; omega) hex⟩

/-- C1 witness: one product requesting 8, allocated 3 from the closer
warehouse (5 in stock, 2 reserved) and 5 from the farther one. -/
theorem allocation_conserves_and_reports_insufficiency_witness :
    (([("A", exampleDetails)].map Prod.fst).Nodup
      ∧ (∀ pd ∈ [("A", exampleDetails)], 1 ≤ pd.2.requestedQuantity)
      ∧ ((exampleWarehouses.map (·.warehouseId)).Nodup))
    ∧ ((([(⟨"A", "W2", 3, 100, 0, 500, 3⟩ : AllocatedOrderLine),
          ⟨"A", "W1", 5, 100, 0, 500, 7⟩].filter
            (fun l => l.productId == "A")).map (·.allocatedQuantity)).sum =
        exampleDetails.requestedQuantity) :=
  ⟨⟨by decide, by decide, by decide⟩,
    (allocation_conserves_and_reports_insufficiency
        [("A", exampleDetails)] exampleWarehouses exampleInv exampleRes
        (by decide) (by decide) (by decide)).1
      [⟨"A", "W2", 3, 100, 0, 500, 3⟩, ⟨"A", "W1", 5, 100, 0, 500, 7⟩]
      [⟨"A", "W2", 3⟩, ⟨"A", "W1", 5⟩] rfl
      ("A", exampleDetails) (List.mem_cons_self _ _)⟩

/-! ## C2 support: snapshots cover every emitted decrement -/

theorem getReserved_nonneg (lines : List ReservationLineRow) (pids : List String)
    (h : ∀ l ∈ lines, 0 ≤ l.quantity) (w p : String) :
    0 ≤ getReservedInventoryByWarehouseForProducts lines pids w p := by
  rw [getReservedInventoryByWarehouseForProducts]
  by_cases hp : p ∈ pids
  · rw [if_pos hp]
    refine List.sum_nonneg ?_
    intro x hx
    obtain ⟨l, hl, hlx⟩ := List.mem_map.mp hx
    have := h l (List.mem_of_mem_filter hl)
    omega
  · rw [if_neg hp]

theorem getInventoryForProducts_spec (rows : List InventoryRow)
    (pids : List String) (w p : String) :
    getInventoryForProducts rows pids w p = 0 ∨
      ∃ r ∈ rows, r.productId = p ∧ r.warehouseId = w ∧
        r.quantity = getInventoryForProducts rows pids w p := by
  rw [getInventoryForProducts]
  suffices h : ∀ (acc : Int),
      rows.foldl (fun acc r =>
        if r.productId ∈ pids ∧ r.warehouseId = w ∧ r.productId = p
        then r.quantity else acc) acc = acc ∨
      ∃ r ∈ rows, r.productId = p ∧ r.warehouseId = w ∧
        r.quantity = rows.foldl (fun acc r =>
          if r.productId ∈ pids ∧ r.warehouseId = w ∧ r.productId = p
          then r.quantity else acc) acc by
    exact h 0
  induction rows with
  | nil => intro acc; exact Or.inl rfl
  | cons r rows ih =>
    intro acc
    rw [List.foldl_cons]
    by_cases hc : r.productId ∈ pids ∧ r.warehouseId = w ∧ r.productId = p
    · rw [if_pos hc]
      rcases ih r.quantity with h | h
      · exact Or.inr ⟨r, List.mem_cons_self r rows, hc.2.2, hc.2.1, h.symm ▸ h ▸ rfl⟩
      · obtain ⟨r', hr', h₁, h₂, h₃⟩ := h
        exact Or.inr ⟨r', List.mem_cons_of_mem r hr', h₁, h₂, h₃⟩
    · rw [if_neg hc]
      rcases ih acc with h | h
      · exact Or.inl h
      · obtain ⟨r', hr', h₁, h₂, h₃⟩ := h
        exact Or.inr ⟨r', List.mem_cons_of_mem r hr', h₁, h₂, h₃⟩

theorem performInventoryAllocation_updates_mem
    (pds : List (String × ProductCostDetails)) (ws : List WarehouseShippingInfo)
    (inv res : String → String → Int) (lines : List AllocatedOrderLine)
    (updates : List InventoryUpdateItem)
    (h : performInventoryAllocation pds ws inv res = .ok (lines, updates)) :
    ∀ u ∈ updates, 0 < u.quantityToDecrement ∧
      u.quantityToDecrement ≤
        inv u.warehouseId u.productId - res u.warehouseId u.productId := by
  intro u hu
  rw [performInventoryAllocation_updates_eq pds ws inv res lines updates h] at hu
  obtain ⟨l, hl, hlu⟩ := List.mem_map.mp hu
  obtain ⟨-, hq, -, hle⟩ :=
    performInventoryAllocation_lines_mem pds ws inv res lines updates h l hl
  subst hlu
  exact ⟨hq, hle⟩

theorem allocateProduct_updates_pid (pid : String) (d : ProductCostDetails)
    (inv res : String → String → Int) (ws : List WarehouseShippingInfo) (r : Int) :
    ∀ u ∈ (allocateProduct pid d inv res ws r).2.1, u.productId = pid := by
  intro u hu
  rw [allocateProduct_updates_eq] at hu
  obtain ⟨l, hl, hlu⟩ := List.mem_map.mp hu
  subst hlu
  exact (allocateProduct_lines_mem pid d inv res ws r l hl).1

theorem allocateProduct_updates_wids_nodup (pid : String) (d : ProductCostDetails)
    (inv res : String → String → Int) (ws : List WarehouseShippingInfo) (r : Int)
    (hws : (ws.map (·.warehouseId)).Nodup) :
    (((allocateProduct pid d inv res ws r).2.1).map (·.warehouseId)).Nodup := by
  rw [allocateProduct_updates_eq]
  have hsub := allocateProduct_warehouseIds_sublist pid d inv res ws r
  rw [List.map_map]
  have : ((allocateProduct pid d inv res ws r).1.map
      ((fun u : InventoryUpdateItem => u.warehouseId) ∘
        (fun l : AllocatedOrderLine =>
          (⟨l.productId, l.warehouseId, l.allocatedQuantity⟩ : InventoryUpdateItem)))) =
      (allocateProduct pid d inv res ws r).1.map (·.warehouseId) := by
    simp [Function.comp]
  rw [this]
  exact List.Nodup.sublist hsub hws

theorem performInventoryAllocation_updates_pairwise :
    ∀ (pds : List (String × ProductCostDetails)) (ws : List WarehouseShippingInfo)
      (inv res : String → String → Int) (lines : List AllocatedOrderLine)
      (updates : List InventoryUpdateItem),
      performInventoryAllocation pds ws inv res = .ok (lines, updates) →
      (pds.map Prod.fst).Nodup →
      (ws.map (·.warehouseId)).Nodup →
      updates.Pairwise (fun u v =>
        ¬(u.productId = v.productId ∧ u.warehouseId = v.warehouseId)) := by
  intro pds
  induction pds with
  | nil =>
    intro ws inv res lines updates h hnd hws
    rw [performInventoryAllocation] at h
    simp only [Except.ok.injEq, Prod.mk.injEq] at h
    obtain ⟨-, hu⟩ := h
    subst hu
    exact List.Pairwise.nil
  | cons hd0 rest ih =>
    obtain ⟨pid, d⟩ := hd0
    intro ws inv res lines updates h hnd hws
    rw [performInventoryAllocation] at h
    by_cases h0 : 0 < (allocateProduct pid d inv res ws d.requestedQuantity).2.2
    · rw [if_pos h0] at h; exact absurd h (by simp)
    · rw [if_neg h0] at h
      cases hrec : performInventoryAllocation rest ws inv res with
      | error e => rw [hrec] at h; exact absurd h (by simp)
      | ok out =>
        obtain ⟨ls', us'⟩ := out
        rw [hrec] at h
        simp only [Except.ok.injEq, Prod.mk.injEq] at h
        obtain ⟨-, hu⟩ := h
        subst hu
        have hnd' : (rest.map Prod.fst).Nodup := (List.nodup_cons.mp hnd).2
        have hpidnot : pid ∉ rest.map Prod.fst := (List.nodup_cons.mp hnd).1
        rw [List.pairwise_append]
        refine ⟨?_, ih ws inv res ls' us' hrec hnd' hws, ?_⟩
        · -- within the head product's updates: distinct warehouses
          have hwnodup := allocateProduct_updates_wids_nodup pid d inv res ws
            d.requestedQuantity hws
          have hpair : ((allocateProduct pid d inv res ws
              d.requestedQuantity).2.1).Pairwise
              (fun u v => u.warehouseId ≠ v.warehouseId) := by
            rw [List.Nodup, List.pairwise_map] at hwnodup
            exact hwnodup
          refine hpair.imp ?_
          intro u v hne hc
          exact hne hc.2
        · -- across products: different product ids
          intro u hu v hv hc
          have hupid := allocateProduct_updates_pid pid d inv res ws
            d.requestedQuantity u hu
          have hvpid : v.productId ∈ rest.map Prod.fst := by
            rw [performInventoryAllocation_updates_eq rest ws inv res ls' us' hrec]
              at hv
            obtain ⟨l, hl, hlv⟩ := List.mem_map.mp hv
            subst hlv
            exact (performInventoryAllocation_lines_mem rest ws inv res ls' us'
              hrec l hl).1
          rw [← hc.1, hupid] at hvpid
          exact hpidnot hvpid

theorem updateInventoryAndLogChanges_total :
    ∀ (updates : List InventoryUpdateItem) (rows : List InventoryRow)
      (log : List InventoryLogRow) (orderId : String),
      (∀ u ∈ updates, 0 < u.quantityToDecrement ∧
        ∃ r ∈ rows, r.productId = u.productId ∧ r.warehouseId = u.warehouseId ∧
          u.quantityToDecrement ≤ r.quantity) →
      updates.Pairwise (fun u v =>
        ¬(u.productId = v.productId ∧ u.warehouseId = v.warehouseId)) →
      ∃ out, updateInventoryAndLogChanges rows log updates orderId = .ok out := by
  intro updates
  induction updates with
  | nil =>
    intro rows log orderId hall hpair
    exact ⟨(rows, log), by rw [updateInventoryAndLogChanges]⟩
  | cons u rest ih =>
    intro rows log orderId hall hpair
    obtain ⟨hpos, r₀, hr₀, hid₁, hid₂, hle⟩ := hall u (List.mem_cons_self u rest)
    rw [updateInventoryAndLogChanges, if_neg (by omega)]
    cases happly : applyInventoryUpdate rows u with
    | none =>
      rw [applyInventoryUpdate_none] at happly
      exact absurd ⟨hid₁, hid₂, hle⟩ (happly r₀ hr₀)
    | some pair =>
      obtain ⟨rows₂, nq⟩ := pair
      obtain ⟨-, hrows₂⟩ := applyInventoryUpdate_some happly
      refine ih rows₂ _ orderId ?_ (List.pairwise_cons.mp hpair).2
      intro v hv
      obtain ⟨hvpos, rv, hrv, hv₁, hv₂, hv₃⟩ := hall v (List.mem_cons_of_mem u hv)
      have hdiff := (List.pairwise_cons.mp hpair).1 v hv
      have hcond : (rv.productId == u.productId && rv.warehouseId == u.warehouseId &&
          decide (u.quantityToDecrement ≤ rv.quantity)) = false := by
        by_cases hc : (rv.productId == u.productId &&
            rv.warehouseId == u.warehouseId &&
            decide (u.quantityToDecrement ≤ rv.quantity)) = true
        · exfalso
          obtain ⟨hp, hw, -⟩ := (applyInventoryUpdate_row_pred u rv).mp hc
          exact hdiff ⟨by rw [← hv₁, hp], by rw [← hv₂, hw]⟩
        · exact Bool.eq_false_iff.mpr hc
      have hfix : (if rv.productId == u.productId &&
          rv.warehouseId == u.warehouseId &&
          decide (u.quantityToDecrement ≤ rv.quantity)
          then { rv with quantity := rv.quantity - u.quantityToDecrement }
          else rv) = rv := by
        rw [hcond]; simp
      refine ⟨hvpos, rv, ?_, hv₁, hv₂, hv₃⟩
      rw [hrows₂]
      exact List.mem_map.mpr ⟨rv, hrv, hfix⟩

/-! ## C2: allocations stay within available stock; decrements are covered -/

/-- C2: every allocation line emitted by `performInventoryAllocation`
allocates at most `max(0, physicalStock − reservedStock)` at its
`(product, warehouse)` pair, and no line is emitted where
`physicalStock − reservedStock ≤ 0`; consequently, when the snapshots are
the ledger reads of a database state with non-negative reservation
quantities (and distinct product keys and warehouse ids), every emitted
decrement is covered by physical stock, so the conditional-decrement write
succeeds — its zero-rows-matched error branch is unreachable. -/
theorem allocation_within_available_and_decrements_covered
    (pds : List (String × ProductCostDetails)) (ws : List WarehouseShippingInfo)
    (inv res : String → String → Int) (lines : List AllocatedOrderLine)
    (updates : List InventoryUpdateItem)
    (h : performInventoryAllocation pds ws inv res = .ok (lines, updates)) :
    (∀ l ∈ lines,
      l.allocatedQuantity ≤
        max 0 (inv l.warehouseId l.productId - res l.warehouseId l.productId)
      ∧ 0 < inv l.warehouseId l.productId - res l.warehouseId l.productId)
    ∧ (∀ (st : DBState) (productIds : List String) (orderId : String),
        inv = getInventoryForProducts st.inventory productIds →
        res = getReservedInventoryByWarehouseForProducts st.reservationLines
          productIds →
        (∀ ln ∈ st.reservationLines, 0 ≤ ln.quantity) →
        (pds.map Prod.fst).Nodup →
        (ws.map (·.warehouseId)).Nodup →
        ∃ out, updateInventoryAndLogChanges st.inventory st.inventoryLog updates
          orderId = .ok out) := by
  constructor
  · intro l hl
    obtain ⟨-, hq, hd, hle⟩ :=
      performInventoryAllocation_lines_mem pds ws inv res lines updates h l hl
    exact ⟨by omega, hd⟩
  · intro st productIds orderId hinv hres hresnn hknodup hwnodup
    refine updateInventoryAndLogChanges_total updates st.inventory st.inventoryLog
      orderId ?_
      (performInventoryAllocation_updates_pairwise pds ws inv res lines updates h
        hknodup hwnodup)
    intro u hu
    obtain ⟨hpos, hle⟩ :=
      performInventoryAllocation_updates_mem pds ws inv res lines updates h u hu
    rw [hinv] at hle
    have hr0 : 0 ≤ res u.warehouseId u.productId := by
      rw [hres]
      exact getReserved_nonneg st.reservationLines productIds hresnn _ _
    refine ⟨hpos, ?_⟩
    rcases getInventoryForProducts_spec st.inventory productIds
        u.warehouseId u.productId with hzero | ⟨r, hr, h₁, h₂, h₃⟩
    · omega
    · exact ⟨r, hr, h₁, h₂, by omega⟩

/-- C2 witness: the concrete two-warehouse allocation; the first line takes
3 units at W2 where 5 are physical and 2 reserved. -/
theorem allocation_within_available_witness :
    performInventoryAllocation [("A", exampleDetails)] exampleWarehouses
        exampleInv exampleRes =
      .ok ([⟨"A", "W2", 3, 100, 0, 500, 3⟩, ⟨"A", "W1", 5, 100, 0, 500, 7⟩],
        [⟨"A", "W2", 3⟩, ⟨"A", "W1", 5⟩])
    ∧ ((3 : Int) ≤ max 0 (exampleInv "W2" "A" - exampleRes "W2" "A")
        ∧ 0 < exampleInv "W2" "A" - exampleRes "W2" "A") :=
  ⟨rfl,
    (allocation_within_available_and_decrements_covered
        [("A", exampleDetails)] exampleWarehouses exampleInv exampleRes
        [⟨"A", "W2", 3, 100, 0, 500, 3⟩, ⟨"A", "W1", 5, 100, 0, 500, 7⟩]
        [⟨"A", "W2", 3⟩, ⟨"A", "W1", 5⟩] rfl).1
      ⟨"A", "W2", 3, 100, 0, 500, 3⟩ (List.mem_cons_self _ _)⟩

/-! ## C10: duplicate request items - last occurrence wins -/

theorem mapLookup_mapSet_self : ∀ (m : List (String × ProductCostDetails))
    (k : String) (v : ProductCostDetails), mapLookup (mapSet m k v) k = some v := by
  intro m k v
  induction m with
  | nil => simp [mapSet, mapLookup]
  | cons p m ih =>
    by_cases hp : (p.1 == k) = true
    · have hany : (p :: m).any (fun q => q.1 == k) = true := by
        simp [List.any_cons, hp]
      rw [mapSet, if_pos hany]
      rw [List.map_cons, if_pos hp]
      rw [mapLookup, List.find?_cons_of_pos _ (by simp)]
      rfl
    · have hany : (p :: m).any (fun q => q.1 == k) = m.any (fun q => q.1 == k) := by
        simp [List.any_cons, hp]
      by_cases hm : m.any (fun q => q.1 == k) = true
      · rw [mapSet, if_pos (by rw [hany]; exact hm)]
        rw [List.map_cons, if_neg hp]
        rw [mapLookup, List.find?_cons_of_neg _ (by simpa using hp)]
        rw [mapSet, if_pos hm] at ih
        exact ih
      · rw [mapSet, if_neg (by rw [hany]; exact hm)]
        rw [List.cons_append]
        rw [mapLookup, List.find?_cons_of_neg _ (by simpa using hp)]
        rw [mapSet, if_neg hm] at ih
        exact ih

theorem find?_map_mapSetFn (k k' : String) (v : ProductCostDetails)
    (hne : k' ≠ k) :
    ∀ (m : List (String × ProductCostDetails)),
      (m.map (fun p => if (p.1 == k) = true then (k, v) else p)).find?
          (fun q => q.1 == k') =
        m.find? (fun q => q.1 == k') := by
  intro m
  induction m with
  | nil => rfl
  | cons p m ih =>
    rw [List.map_cons]
    by_cases hp : (p.1 == k) = true
    · rw [if_pos hp]
      have hpk : p.1 = k := by simpa using hp
      rw [List.find?_cons_of_neg _ (by simpa using Ne.symm hne),
        List.find?_cons_of_neg _ (by rw [hpk]; simpa using Ne.symm hne)]
      exact ih
    · rw [if_neg hp]
      by_cases hpk' : (p.1 == k') = true
      · rw [List.find?_cons_of_pos (m.map (fun p => if (p.1 == k) = true then (k, v) else p)) hpk',
          List.find?_cons_of_pos m hpk']
      · rw [List.find?_cons_of_neg _ (by simpa using hpk'),
          List.find?_cons_of_neg _ (by simpa using hpk')]
        exact ih

theorem mapLookup_mapSet_ne : ∀ (m : List (String × ProductCostDetails))
    (k k' : String) (v : ProductCostDetails), k' ≠ k →
    mapLookup (mapSet m k v) k' = mapLookup m k' := by
  intro m k k' v hne
  by_cases hany : m.any (fun q => q.1 == k) = true
  · rw [mapSet, if_pos hany, mapLookup, mapLookup, find?_map_mapSetFn k k' v hne]
  · rw [mapSet, if_neg hany, mapLookup, mapLookup, List.find?_append]
    cases hfind : m.find? (fun q => q.1 == k') with
    | some q => rfl
    | none =>
      simp only [Option.none_or]
      rw [List.find?_cons_of_neg _ (by simpa using Ne.symm hne)]
      rfl

theorem costsFold_lookup_untouched (products : List ProductRow)
    (discounts : List VolumeDiscountRow) :
    ∀ (items : List OrderRequestedProduct)
      (acc : List (String × ProductCostDetails)) (pid : String),
      (∀ it ∈ items, it.productId ≠ pid) →
      mapLookup (items.foldl (fun m it =>
        match products.find? (fun p => p.id == it.productId) with
        | some p =>
          mapSet m it.productId
            (mkProductCostDetails p (tiersForProduct discounts it.productId)
              it.quantity)
        | none => m) acc) pid = mapLookup acc pid := by
  intro items
  induction items with
  | nil => intro acc pid h; rfl
  | cons it its ih =>
    intro acc pid h
    rw [List.foldl_cons]
    rw [ih _ pid (fun x hx => h x (List.mem_cons_of_mem it hx))]
    cases hfind : products.find? (fun p => p.id == it.productId) with
    | none => rfl
    | some p =>
      simp only [hfind]
      exact mapLookup_mapSet_ne acc it.productId pid _
        (fun hc => h it (List.mem_cons_self it its) hc.symm)

theorem costsFold_lookup_last (products : List ProductRow)
    (discounts : List VolumeDiscountRow) :
    ∀ (items : List OrderRequestedProduct)
      (acc : List (String × ProductCostDetails)) (pid : String)
      (it₀ : OrderRequestedProduct) (p : ProductRow),
      items.reverse.find? (fun it => it.productId == pid) = some it₀ →
      products.find? (fun pr => pr.id == pid) = some p →
      mapLookup (items.foldl (fun m it =>
        match products.find? (fun p => p.id == it.productId) with
        | some p =>
          mapSet m it.productId
            (mkProductCostDetails p (tiersForProduct discounts it.productId)
              it.quantity)
        | none => m) acc) pid =
        some (mkProductCostDetails p (tiersForProduct discounts pid)
          it₀.quantity) := by
  intro items
  induction items with
  | nil => intro acc pid it₀ p hlast hp; exact absurd hlast (by simp)
  | cons it its ih =>
    intro acc pid it₀ p hlast hp
    rw [List.reverse_cons, List.find?_append] at hlast
    rw [List.foldl_cons]
    cases hq : its.reverse.find? (fun it => it.productId == pid) with
    | some it₁ =>
      rw [hq] at hlast
      simp only [Option.or_some, Option.some.injEq] at hlast
      subst hlast
      exact ih _ pid it₁ p hq hp
    | none =>
      rw [hq] at hlast
      simp only [Option.none_or] at hlast
      cases hqit : (it.productId == pid) with
      | false => simp [List.find?_cons, hqit] at hlast
      | true =>
        simp only [List.find?_cons, hqit, List.find?_nil,
          Option.some.injEq] at hlast
        subst hlast
        have hpid : it.productId = pid := by simpa using hqit
        have huntouched : ∀ x ∈ its, x.productId ≠ pid := by
          intro x hx
          have := List.find?_eq_none.mp hq x (List.mem_reverse.mpr hx)
          simpa using this
        rw [costsFold_lookup_untouched products discounts its _ pid huntouched]
        rw [hpid]
        simp only [hp]
        exact mapLookup_mapSet_self acc pid _

/-- C10 (implicit behavior): when the same product id appears more than once
in a request's item list, the cost calculator's result map binds that id to
the cost details computed from the **last** occurrence's quantity — earlier
occurrences are overwritten by `resultsMap.set`, not summed and not
rejected. -/
theorem duplicate_product_last_occurrence_wins
    (products : List ProductRow) (discounts : List VolumeDiscountRow)
    (items : List OrderRequestedProduct) (m : List (String × ProductCostDetails))
    (pid : String) (it₀ : OrderRequestedProduct) (p : ProductRow)
    (hok : calculateProductCostsWithDiscounts products discounts items = .ok m)
    (hlast : items.reverse.find? (fun it => it.productId == pid) = some it₀)
    (hp : products.find? (fun pr => pr.id == pid) = some p) :
    mapLookup m pid =
      some (mkProductCostDetails p (tiersForProduct discounts pid)
        it₀.quantity) := by
  rw [calculateProductCostsWithDiscounts] at hok
  cases hmiss : items.find?
      (fun it => (products.find? (fun p => p.id == it.productId)).isNone) with
  | some it => rw [hmiss] at hok; exact absurd hok (by simp)
  | none =>
    rw [hmiss] at hok
    simp only [Except.ok.injEq] at hok
    subst hok
    exact costsFold_lookup_last products discounts items [] pid it₀ p hlast hp

/-- C10 witness: items `[(A,3), (A,7)]` price product A at quantity 7. -/
theorem duplicate_product_last_occurrence_wins_witness :
    calculateProductCostsWithDiscounts [⟨"A", 100, 500⟩] []
        [⟨"A", 3⟩, ⟨"A", 7⟩] = .ok [("A", ⟨7, 100, 500, 0, 700, 0, 700⟩)]
    ∧ ([(⟨"A", 3⟩ : OrderRequestedProduct), ⟨"A", 7⟩].reverse.find?
        (fun it => it.productId == "A") = some ⟨"A", 7⟩)
    ∧ mapLookup [("A", ⟨7, 100, 500, 0, 700, 0, 700⟩)] "A" =
        some (mkProductCostDetails ⟨"A", 100, 500⟩ (tiersForProduct [] "A") 7) :=
  ⟨by simp [calculateProductCostsWithDiscounts, mapSet, mkProductCostDetails,
      tiersForProduct, sortTiersDesc, resolveDiscountPercentage], rfl,
    duplicate_product_last_occurrence_wins [⟨"A", 100, 500⟩] []
      [⟨"A", 3⟩, ⟨"A", 7⟩] [("A", ⟨7, 100, 500, 0, 700, 0, 700⟩)] "A"
      ⟨"A", 7⟩ ⟨"A", 100, 500⟩
      (by simp [calculateProductCostsWithDiscounts, mapSet, mkProductCostDetails,
        tiersForProduct, sortTiersDesc, resolveDiscountPercentage]) rfl rfl⟩

/-! ## C9: the warehouse ranker -/

theorem shippingLe_trans : ∀ (a b c : WarehouseShippingInfo),
    (fun a b : WarehouseShippingInfo =>
      decide (a.shippingCostCentsPerKg ≤ b.shippingCostCentsPerKg)) a b →
    (fun a b : WarehouseShippingInfo =>
      decide (a.shippingCostCentsPerKg ≤ b.shippingCostCentsPerKg)) b c →
    (fun a b : WarehouseShippingInfo =>
      decide (a.shippingCostCentsPerKg ≤ b.shippingCostCentsPerKg)) a c := by
  intro a b c hab hbc
  simp only [decide_eq_true_eq] at hab hbc ⊢
  omega

theorem shippingLe_total : ∀ (a b : WarehouseShippingInfo),
    ((fun a b : WarehouseShippingInfo =>
      decide (a.shippingCostCentsPerKg ≤ b.shippingCostCentsPerKg)) a b ||
    (fun a b : WarehouseShippingInfo =>
      decide (a.shippingCostCentsPerKg ≤ b.shippingCostCentsPerKg)) b a) = true := by
  intro a b
  simp only [Bool.or_eq_true, decide_eq_true_eq]
  omega

theorem mergeSort_filter_cost_eq (l : List WarehouseShippingInfo) (c : Int) :
    ((l.mergeSort (fun a b =>
        decide (a.shippingCostCentsPerKg ≤ b.shippingCostCentsPerKg))).filter
      (fun e => e.shippingCostCentsPerKg == c)) =
    l.filter (fun e => e.shippingCostCentsPerKg == c) := by
  have hcost : ∀ e ∈ l.filter (fun e => e.shippingCostCentsPerKg == c),
      e.shippingCostCentsPerKg = c := by
    intro e he
    have := (List.mem_filter.mp he).2
    simpa using this
  have hpair : (l.filter (fun e => e.shippingCostCentsPerKg == c)).Pairwise
      (fun a b : WarehouseShippingInfo =>
        decide (a.shippingCostCentsPerKg ≤ b.shippingCostCentsPerKg) = true) := by
    refine List.pairwise_of_forall_mem_list ?_
    intro a ha b hb
    simp only [decide_eq_true_eq, hcost a ha, hcost b hb, le_refl]
  have h1 := List.sublist_mergeSort shippingLe_trans shippingLe_total hpair
    (List.filter_sublist l)
  have h2 : (l.filter (fun e => e.shippingCostCentsPerKg == c)).filter
      (fun e => e.shippingCostCentsPerKg == c) =
      l.filter (fun e => e.shippingCostCentsPerKg == c) := by
    refine List.filter_eq_self.mpr ?_
    intro e he
    simpa using hcost e he
  have h3 : (l.filter (fun e => e.shippingCostCentsPerKg == c)).Sublist
      ((l.mergeSort (fun a b =>
        decide (a.shippingCostCentsPerKg ≤ b.shippingCostCentsPerKg))).filter
          (fun e => e.shippingCostCentsPerKg == c)) := by
    have hf := List.Sublist.filter
      (fun e : WarehouseShippingInfo => e.shippingCostCentsPerKg == c) h1
    rw [h2] at hf
    exact hf
  have hlen : ((l.mergeSort (fun a b =>
      decide (a.shippingCostCentsPerKg ≤ b.shippingCostCentsPerKg))).filter
        (fun e => e.shippingCostCentsPerKg == c)).length =
      (l.filter (fun e => e.shippingCostCentsPerKg == c)).length := by
    rw [← List.countP_eq_length_filter, ← List.countP_eq_length_filter]
    exact (List.mergeSort_perm l _).countP_eq _
  exact (List.Sublist.eq_of_length h3 hlen.symm).symm

theorem calculateDistanceKm_self (a b : ℝ) : calculateDistanceKm a b a b = 0 := by
  simp [calculateDistanceKm, degreesToRadians, atan2, Real.sqrt_one,
    Real.arctan_zero]

/-- C9: the warehouse ranker emits one entry per warehouse whose cost per kg
is `Math.round(haversineDistanceKm × rate)`, sorted ascending by cost with a
stable sort (for each cost value, the entries appear in the warehouses'
original order); a distance of 0 gives cost 0 (and the haversine distance
from any point to itself is 0), and no warehouses give an empty result. -/
theorem warehouse_ranker_spec (rate : Int) (lat lng : ℝ) (ws : List WarehouseRow) :
    (getWarehousesSortedByShippingCostReal rate lat lng ws).Pairwise
      (fun a b => a.shippingCostCentsPerKg ≤ b.shippingCostCentsPerKg)
    ∧ (getWarehousesSortedByShippingCostReal rate lat lng ws).Perm
        (ws.map (fun w => ⟨w.id, warehouseShippingCost rate lat lng w⟩))
    ∧ (∀ c : Int,
        (getWarehousesSortedByShippingCostReal rate lat lng ws).filter
          (fun e => e.shippingCostCentsPerKg == c) =
        (ws.map (fun w => ⟨w.id, warehouseShippingCost rate lat lng w⟩)).filter
          (fun e => e.shippingCostCentsPerKg == c))
    ∧ (∀ w : WarehouseRow, warehouseShippingCost rate lat lng w =
        round (calculateDistanceKm w.latitude w.longitude lat lng * (rate : ℝ)))
    ∧ (∀ w : WarehouseRow,
        calculateDistanceKm w.latitude w.longitude lat lng = 0 →
        warehouseShippingCost rate lat lng w = 0)
    ∧ (∀ a b : ℝ, calculateDistanceKm a b a b = 0)
    ∧ (ws = [] → getWarehousesSortedByShippingCostReal rate lat lng ws = []) := by
  refine ⟨?_, ?_, ?_, fun w => rfl, ?_, calculateDistanceKm_self, ?_⟩
  · have := List.sorted_mergeSort shippingLe_trans shippingLe_total
      (ws.map (fun w => ⟨w.id, warehouseShippingCost rate lat lng w⟩))
    refine this.imp ?_
    intro a b hab
    simpa using hab
  · exact List.mergeSort_perm _ _
  · intro c
    exact mergeSort_filter_cost_eq
      (ws.map (fun w => ⟨w.id, warehouseShippingCost rate lat lng w⟩)) c
  · intro w h
    rw [warehouseShippingCost, h, zero_mul, round_zero]
  · intro h
    subst h
    simp [getWarehousesSortedByShippingCostReal, getWarehousesSortedByShippingCost]

/-- C9 witness: the empty-warehouse case. -/
theorem warehouse_ranker_spec_witness :
    ([] : List WarehouseRow) = [] ∧
      getWarehousesSortedByShippingCostReal 1 0 0 [] = [] :=
  ⟨rfl, (warehouse_ranker_spec 1 0 0 []).2.2.2.2.2.2 rfl⟩

/-! ## Orchestrator unfolding equations, C4 and C7 -/

theorem mapSet_keys_any_true (m : List (String × ProductCostDetails)) (k : String)
    (v : ProductCostDetails) (h : m.any (fun q => q.1 == k) = true) :
    (mapSet m k v).map Prod.fst = m.map Prod.fst := by
  rw [mapSet, if_pos h, List.map_map]
  refine List.map_congr_left ?_
  intro p hp
  by_cases hpk : (p.1 == k) = true
  · have : p.1 = k := by simpa using hpk
    simp [Function.comp, hpk, this]
  · simp [Function.comp, hpk]

theorem mapSet_keys_any_false (m : List (String × ProductCostDetails)) (k : String)
    (v : ProductCostDetails) (h : m.any (fun q => q.1 == k) = false) :
    (mapSet m k v).map Prod.fst = m.map Prod.fst ++ [k] := by
  rw [mapSet, if_neg (by rw [h]; exact Bool.false_ne_true), List.map_append]
  rfl

theorem mapSet_keys_nodup (m : List (String × ProductCostDetails)) (k : String)
    (v : ProductCostDetails) (h : (m.map Prod.fst).Nodup) :
    ((mapSet m k v).map Prod.fst).Nodup := by
  cases hany : m.any (fun q => q.1 == k) with
  | true => rw [mapSet_keys_any_true m k v hany]; exact h
  | false =>
    rw [mapSet_keys_any_false m k v hany]
    rw [List.nodup_append]
    refine ⟨h, List.nodup_singleton k, ?_⟩
    intro a ha hb
    have hak : a = k := by simpa using hb
    subst hak
    obtain ⟨q, hq, hqa⟩ := List.mem_map.mp ha
    have := List.any_eq_false.mp hany q hq
    rw [hqa] at this
    simp at this

theorem costsFold_keys_nodup (products : List ProductRow)
    (discounts : List VolumeDiscountRow) :
    ∀ (items : List OrderRequestedProduct)
      (acc : List (String × ProductCostDetails)),
      ((acc.map Prod.fst).Nodup) →
      (((items.foldl (fun m it =>
        match products.find? (fun p => p.id == it.productId) with
        | some p =>
          mapSet m it.productId
            (mkProductCostDetails p (tiersForProduct discounts it.productId)
              it.quantity)
        | none => m) acc).map Prod.fst).Nodup) := by
  intro items
  induction items with
  | nil => intro acc h; exact h
  | cons it its ih =>
    intro acc h
    rw [List.foldl_cons]
    refine ih _ ?_
    cases hfind : products.find? (fun p => p.id == it.productId) with
    | none => exact h
    | some p => exact mapSet_keys_nodup acc it.productId _ h

theorem calc_keys_nodup (products : List ProductRow)
    (discounts : List VolumeDiscountRow) (items : List OrderRequestedProduct)
    (m : List (String × ProductCostDetails))
    (h : calculateProductCostsWithDiscounts products discounts items = .ok m) :
    (m.map Prod.fst).Nodup := by
  rw [calculateProductCostsWithDiscounts] at h
  cases hmiss : items.find?
      (fun it => (products.find? (fun p => p.id == it.productId)).isNone) with
  | some it => rw [hmiss] at h; exact absurd h (by simp)
  | none =>
    rw [hmiss] at h
    simp only [Except.ok.injEq] at h
    subst h
    exact costsFold_keys_nodup products discounts items [] List.Pairwise.nil

theorem ranker_ids_nodup (costOf : WarehouseRow → Int) (ws : List WarehouseRow)
    (h : (ws.map (·.id)).Nodup) :
    ((getWarehousesSortedByShippingCost costOf ws).map (·.warehouseId)).Nodup := by
  rw [getWarehousesSortedByShippingCost]
  have hperm := List.mergeSort_perm
    (ws.map (fun w => ({ warehouseId := w.id, shippingCostCentsPerKg := costOf w } :
      WarehouseShippingInfo)))
    (fun a b => decide (a.shippingCostCentsPerKg ≤ b.shippingCostCentsPerKg))
  have hmap := hperm.map (fun e : WarehouseShippingInfo => e.warehouseId)
  refine hmap.nodup_iff.mpr ?_
  rw [List.map_map]
  exact h

theorem snapshot_update_succeeds (pds : List (String × ProductCostDetails))
    (ws : List WarehouseShippingInfo) (lines : List AllocatedOrderLine)
    (updates : List InventoryUpdateItem) (st : DBState)
    (productIds : List String) (orderId : String)
    (h : performInventoryAllocation pds ws
      (getInventoryForProducts st.inventory productIds)
      (getReservedInventoryByWarehouseForProducts st.reservationLines productIds) =
      .ok (lines, updates))
    (hresnn : ∀ ln ∈ st.reservationLines, 0 ≤ ln.quantity)
    (hknodup : (pds.map Prod.fst).Nodup)
    (hwnodup : (ws.map (·.warehouseId)).Nodup) :
    ∃ out, updateInventoryAndLogChanges st.inventory st.inventoryLog updates
      orderId = .ok out := by
  refine updateInventoryAndLogChanges_total updates st.inventory st.inventoryLog
    orderId ?_
    (performInventoryAllocation_updates_pairwise pds ws _ _ lines updates h
      hknodup hwnodup)
  intro u hu
  obtain ⟨hpos, hle⟩ :=
    performInventoryAllocation_updates_mem pds ws _ _ lines updates h u hu
  have hr0 : 0 ≤ getReservedInventoryByWarehouseForProducts st.reservationLines
      productIds u.warehouseId u.productId :=
    getReserved_nonneg st.reservationLines productIds hresnn _ _
  refine ⟨hpos, ?_⟩
  rcases getInventoryForProducts_spec st.inventory productIds
      u.warehouseId u.productId with hzero | ⟨r, hr, h₁, h₂, h₃⟩
  · omega
  · exact ⟨r, hr, h₁, h₂, by omega⟩

theorem checkFeasibility_of_calc_error (costOf : WarehouseRow → Int) (st : DBState)
    (req : CreateOrderRequest) (pid : String)
    (hcalc : calculateProductCostsWithDiscounts st.products st.volumeDiscounts
      req.requestedProducts = .error pid) :
    checkFeasibility costOf st req = .error (.productNotFound pid) := by
  simp only [checkFeasibility, hcalc]

theorem checkFeasibility_of_alloc_error (costOf : WarehouseRow → Int) (st : DBState)
    (req : CreateOrderRequest) (pds : List (String × ProductCostDetails))
    (ae : InventoryAllocationError)
    (hcalc : calculateProductCostsWithDiscounts st.products st.volumeDiscounts
      req.requestedProducts = .ok pds)
    (halloc : performInventoryAllocation pds
      (getWarehousesSortedByShippingCost costOf st.warehouses)
      (getInventoryForProducts st.inventory
        (req.requestedProducts.map (·.productId)))
      (getReservedInventoryByWarehouseForProducts st.reservationLines
        (req.requestedProducts.map (·.productId))) = .error ae) :
    checkFeasibility costOf st req = .error (.insufficientInventory ae) := by
  simp only [checkFeasibility, hcalc, halloc]

theorem checkFeasibility_of_alloc_ok (costOf : WarehouseRow → Int) (st : DBState)
    (req : CreateOrderRequest) (pds : List (String × ProductCostDetails))
    (lines : List AllocatedOrderLine) (updates : List InventoryUpdateItem)
    (hcalc : calculateProductCostsWithDiscounts st.products st.volumeDiscounts
      req.requestedProducts = .ok pds)
    (halloc : performInventoryAllocation pds
      (getWarehousesSortedByShippingCost costOf st.warehouses)
      (getInventoryForProducts st.inventory
        (req.requestedProducts.map (·.productId)))
      (getReservedInventoryByWarehouseForProducts st.reservationLines
        (req.requestedProducts.map (·.productId))) = .ok (lines, updates)) :
    checkFeasibility costOf st req =
      .ok ⟨isShippingCostValid (calculateTotalShippingCost lines)
          (calculateOverallProductTotals pds).1
          (calculateOverallProductTotals pds).2,
        (calculateOverallProductTotals pds).1,
        (calculateOverallProductTotals pds).2,
        calculateTotalShippingCost lines⟩ := by
  simp only [checkFeasibility, hcalc, halloc]

theorem createWalkInOrder_of_calc_error (costOf : WarehouseRow → Int)
    (orderId : String) (st : DBState) (req : CreateOrderRequest) (pid : String)
    (hcalc : calculateProductCostsWithDiscounts st.products st.volumeDiscounts
      req.requestedProducts = .error pid) :
    createWalkInOrder costOf orderId st req =
      (.error (.productNotFound pid), st) := by
  simp only [createWalkInOrder, hcalc]

theorem createWalkInOrder_of_body (costOf : WarehouseRow → Int) (orderId : String)
    (st : DBState) (req : CreateOrderRequest)
    (pds : List (String × ProductCostDetails))
    (hcalc : calculateProductCostsWithDiscounts st.products st.volumeDiscounts
      req.requestedProducts = .ok pds) :
    createWalkInOrder costOf orderId st req =
      match createWalkInOrderTxBody st pds
        (getWarehousesSortedByShippingCost costOf st.warehouses)
        (req.requestedProducts.map (·.productId))
        (calculateOverallProductTotals pds).1
        (calculateOverallProductTotals pds).2 req orderId with
      | .ok (resp, st') => (.ok resp, st')
      | .error e => (.error e, st) := by
  simp only [createWalkInOrder, hcalc]

theorem txBody_of_alloc_error (st : DBState)
    (pds : List (String × ProductCostDetails))
    (sws : List WarehouseShippingInfo) (pids : List String) (t1 t2 : Int)
    (req : CreateOrderRequest) (orderId : String) (ae : InventoryAllocationError)
    (halloc : performInventoryAllocation pds sws
      (getInventoryForProducts st.inventory pids)
      (getReservedInventoryByWarehouseForProducts st.reservationLines pids) =
      .error ae) :
    createWalkInOrderTxBody st pds sws pids t1 t2 req orderId =
      .error (.insufficientInventory ae) := by
  simp only [createWalkInOrderTxBody, halloc]

theorem txBody_of_invalid_shipping (st : DBState)
    (pds : List (String × ProductCostDetails))
    (sws : List WarehouseShippingInfo) (pids : List String) (t1 t2 : Int)
    (req : CreateOrderRequest) (orderId : String)
    (lines : List AllocatedOrderLine) (updates : List InventoryUpdateItem)
    (halloc : performInventoryAllocation pds sws
      (getInventoryForProducts st.inventory pids)
      (getReservedInventoryByWarehouseForProducts st.reservationLines pids) =
      .ok (lines, updates))
    (hv : isShippingCostValid (calculateTotalShippingCost lines) t1 t2 = false) :
    createWalkInOrderTxBody st pds sws pids t1 t2 req orderId =
      .error (.shippingCostExceeded (calculateTotalShippingCost lines)
        (t1 - t2)) := by
  simp only [createWalkInOrderTxBody, halloc]
  rw [if_neg (by rw [hv]; exact Bool.false_ne_true)]

theorem txBody_of_valid_shipping (st : DBState)
    (pds : List (String × ProductCostDetails))
    (sws : List WarehouseShippingInfo) (pids : List String) (t1 t2 : Int)
    (req : CreateOrderRequest) (orderId : String)
    (lines : List AllocatedOrderLine) (updates : List InventoryUpdateItem)
    (inv2 : List InventoryRow) (log2 : List InventoryLogRow)
    (halloc : performInventoryAllocation pds sws
      (getInventoryForProducts st.inventory pids)
      (getReservedInventoryByWarehouseForProducts st.reservationLines pids) =
      .ok (lines, updates))
    (hv : isShippingCostValid (calculateTotalShippingCost lines) t1 t2 = true)
    (hupd : updateInventoryAndLogChanges st.inventory st.inventoryLog updates
      orderId = .ok (inv2, log2)) :
    createWalkInOrderTxBody st pds sws pids t1 t2 req orderId =
      .ok (⟨orderId, t1, t2, calculateTotalShippingCost lines⟩,
        { st with
          inventory := inv2
          inventoryLog := log2
          orders := st.orders ++ [⟨orderId, req.shippingLat, req.shippingLng,
            t1, t2, calculateTotalShippingCost lines⟩]
          orderLines := st.orderLines ++ lines.map (fun l =>
            ⟨orderId, l.productId, l.warehouseId, l.allocatedQuantity,
              l.unitPriceCents, l.discountPercentage⟩) }) := by
  simp only [createWalkInOrderTxBody, halloc]
  rw [if_pos hv]
  simp only [hupd]

/-- C4: whenever `createWalkInOrder` fails — product-not-found during
pricing, insufficient inventory during allocation, shipping-cost rejection,
or a failed conditional decrement — the enclosing transaction is rolled
back: the database state after the failed attempt equals the state before
it; in particular no order, order line, inventory quantity or inventory-log
row from the attempt survives. -/
theorem createWalkInOrder_failure_rolls_back (costOf : WarehouseRow → Int)
    (orderId : String) (st : DBState) (req : CreateOrderRequest) (e : OrderError)
    (h : (createWalkInOrder costOf orderId st req).1 = .error e) :
    (createWalkInOrder costOf orderId st req).2 = st
    ∧ (createWalkInOrder costOf orderId st req).2.orders = st.orders
    ∧ (createWalkInOrder costOf orderId st req).2.orderLines = st.orderLines
    ∧ (createWalkInOrder costOf orderId st req).2.inventory = st.inventory
    ∧ (createWalkInOrder costOf orderId st req).2.inventoryLog = st.inventoryLog := by
  have hst : (createWalkInOrder costOf orderId st req).2 = st := by
    cases hcalc : calculateProductCostsWithDiscounts st.products st.volumeDiscounts
        req.requestedProducts with
    | error pid =>
      rw [createWalkInOrder_of_calc_error costOf orderId st req pid hcalc]
    | ok pds =>
      have hbody := createWalkInOrder_of_body costOf orderId st req pds hcalc
      cases hbodyres : createWalkInOrderTxBody st pds
          (getWarehousesSortedByShippingCost costOf st.warehouses)
          (req.requestedProducts.map (·.productId))
          (calculateOverallProductTotals pds).1
          (calculateOverallProductTotals pds).2 req orderId with
      | ok out =>
        obtain ⟨resp, st'⟩ := out
        simp only [hbodyres] at hbody
        rw [hbody] at h
        exact absurd h (by simp)
      | error e' =>
        simp only [hbodyres] at hbody
        rw [hbody]
  exact ⟨hst, by rw [hst], by rw [hst], by rw [hst], by rw [hst]⟩

/-- C4 witness: ordering an unknown product fails with `ProductNotFound` and
leaves the (empty) state untouched. -/
theorem createWalkInOrder_failure_rolls_back_witness :
    (createWalkInOrder (fun _ => 0) "oid" ⟨[], [], [], [], [], [], [], []⟩
        ⟨0, 0, [⟨"X", 1⟩]⟩).1 = .error (.productNotFound "X")
    ∧ (createWalkInOrder (fun _ => 0) "oid" ⟨[], [], [], [], [], [], [], []⟩
        ⟨0, 0, [⟨"X", 1⟩]⟩).2 = ⟨[], [], [], [], [], [], [], []⟩ :=
  ⟨rfl,
    (createWalkInOrder_failure_rolls_back (fun _ => 0) "oid"
      ⟨[], [], [], [], [], [], [], []⟩ ⟨0, 0, [⟨"X", 1⟩]⟩
      (.productNotFound "X") rfl).1⟩

/-- C7: with no intervening mutation, a feasibility check and an immediately
following identical order read the same state and compute the same totals:
the feasibility check returns `isValid = true` exactly when the order
placement would commit, and when both succeed the returned
`totalPriceCents`, `discountCents` and `shippingCostCents` agree. -/
theorem feasibility_order_roundtrip (costOf : WarehouseRow → Int)
    (orderId : String) (st : DBState) (req : CreateOrderRequest)
    (hres : ∀ l ∈ st.reservationLines, 0 ≤ l.quantity)
    (hw : (st.warehouses.map (·.id)).Nodup) :
    ((∃ r, checkFeasibility costOf st req = .ok r ∧ r.isValid = true) ↔
      (∃ resp st', createWalkInOrder costOf orderId st req = (.ok resp, st')))
    ∧ (∀ r resp st', checkFeasibility costOf st req = .ok r →
        createWalkInOrder costOf orderId st req = (.ok resp, st') →
        r.totalPriceCents = resp.totalPriceCents ∧
        r.discountCents = resp.discountCents ∧
        r.shippingCostCents = resp.shippingCostCents) := by
  cases hcalc : calculateProductCostsWithDiscounts st.products st.volumeDiscounts
      req.requestedProducts with
  | error pid =>
    have hcf := checkFeasibility_of_calc_error costOf st req pid hcalc
    have hcw := createWalkInOrder_of_calc_error costOf orderId st req pid hcalc
    refine ⟨⟨?_, ?_⟩, ?_⟩
    · rintro ⟨r, hr, -⟩
      rw [hcf] at hr
      exact absurd hr (by simp)
    · rintro ⟨resp, st', hro⟩
      rw [hcw] at hro
      exact absurd hro (by simp)
    · intro r resp st' hr hro
      rw [hcf] at hr
      exact absurd hr (by simp)
  | ok pds =>
    have hbody := createWalkInOrder_of_body costOf orderId st req pds hcalc
    cases halloc : performInventoryAllocation pds
        (getWarehousesSortedByShippingCost costOf st.warehouses)
        (getInventoryForProducts st.inventory
          (req.requestedProducts.map (·.productId)))
        (getReservedInventoryByWarehouseForProducts st.reservationLines
          (req.requestedProducts.map (·.productId))) with
    | error ae =>
      have hcf := checkFeasibility_of_alloc_error costOf st req pds ae hcalc halloc
      have htx := txBody_of_alloc_error st pds
        (getWarehousesSortedByShippingCost costOf st.warehouses)
        (req.requestedProducts.map (·.productId))
        (calculateOverallProductTotals pds).1
        (calculateOverallProductTotals pds).2 req orderId ae halloc
      simp only [htx] at hbody
      refine ⟨⟨?_, ?_⟩, ?_⟩
      · rintro ⟨r, hr, -⟩
        rw [hcf] at hr
        exact absurd hr (by simp)
      · rintro ⟨resp, st', hro⟩
        rw [hbody] at hro
        exact absurd hro (by simp)
      · intro r resp st' hr hro
        rw [hcf] at hr
        exact absurd hr (by simp)
    | ok out =>
      obtain ⟨lines, updates⟩ := out
      have hcf := checkFeasibility_of_alloc_ok costOf st req pds lines updates
        hcalc halloc
      cases hvalid : isShippingCostValid (calculateTotalShippingCost lines)
          (calculateOverallProductTotals pds).1
          (calculateOverallProductTotals pds).2 with
      | false =>
        have htx := txBody_of_invalid_shipping st pds
          (getWarehousesSortedByShippingCost costOf st.warehouses)
          (req.requestedProducts.map (·.productId))
          (calculateOverallProductTotals pds).1
          (calculateOverallProductTotals pds).2 req orderId lines updates
          halloc hvalid
        simp only [htx] at hbody
        refine ⟨⟨?_, ?_⟩, ?_⟩
        · rintro ⟨r, hr, hrv⟩
          rw [hcf] at hr
          simp only [Except.ok.injEq] at hr
          subst hr
          have hx : isShippingCostValid (calculateTotalShippingCost lines)
              (calculateOverallProductTotals pds).1
              (calculateOverallProductTotals pds).2 = true := hrv
          rw [hvalid] at hx
          exact absurd hx (by simp)
        · rintro ⟨resp, st', hro⟩
          rw [hbody] at hro
          exact absurd hro (by simp)
        · intro r resp st' hr hro
          rw [hbody] at hro
          exact absurd hro (by simp)
      | true =>
        obtain ⟨out2, hupd⟩ := snapshot_update_succeeds pds
          (getWarehousesSortedByShippingCost costOf st.warehouses) lines updates
          st (req.requestedProducts.map (·.productId)) orderId halloc hres
          (calc_keys_nodup st.products st.volumeDiscounts req.requestedProducts
            pds hcalc)
          (ranker_ids_nodup costOf st.warehouses hw)
        obtain ⟨inv2, log2⟩ := out2
        have htx := txBody_of_valid_shipping st pds
          (getWarehousesSortedByShippingCost costOf st.warehouses)
          (req.requestedProducts.map (·.productId))
          (calculateOverallProductTotals pds).1
          (calculateOverallProductTotals pds).2 req orderId lines updates
          inv2 log2 halloc hvalid hupd
        simp only [htx] at hbody
        refine ⟨⟨?_, ?_⟩, ?_⟩
        · intro _
          exact ⟨_, _, hbody⟩
        · intro _
          refine ⟨_, hcf, ?_⟩
          exact hvalid
        · intro r resp st' hr hro
          rw [hcf] at hr
          simp only [Except.ok.injEq] at hr
          subst hr
          rw [hbody] at hro
          simp only [Prod.mk.injEq, Except.ok.injEq] at hro
          obtain ⟨hresp, -⟩ := hro
          subst hresp
          exact ⟨rfl, rfl, rfl⟩

/-- C7 witness: on an empty database an empty order is feasible and would
commit; both paths agree. -/
theorem feasibility_order_roundtrip_witness :
    (∀ l ∈ ([] : List ReservationLineRow), 0 ≤ l.quantity)
    ∧ ((([] : List WarehouseRow).map (·.id)).Nodup)
    ∧ (∃ r, checkFeasibility (fun _ => 0)
        ⟨[], [], [], [], [], [], [], []⟩ ⟨0, 0, []⟩ = .ok r ∧ r.isValid = true) :=
  ⟨fun l hl => absurd hl (List.not_mem_nil l), List.Pairwise.nil,
    (feasibility_order_roundtrip (fun _ => 0) "oid"
        ⟨[], [], [], [], [], [], [], []⟩ ⟨0, 0, []⟩
        (fun l hl => absurd hl (List.not_mem_nil l)) List.Pairwise.nil).1.mpr
      ⟨⟨"oid", 0, 0, 0⟩, ⟨[], [], [], [], [], [], [⟨"oid", 0, 0, 0, 0, 0⟩], []⟩,
        rfl⟩⟩

end Screencloud
